import Mathlib

/-!
Verification development for the scilifelab_epps repository.

Shallow embedding of the two cores described in the specification:
* the AVITI run-manifest generator (`scripts/generate_aviti_run_manifest.py`):
  Levenshtein-distance validation of index pairs, custom mismatch thresholds,
  and the per-flavor manifest builder;
* the UDF formula engine (`scripts/calculate_udf_formulas.py` and
  `scilifelab_epps/utils/udf_tools.py`): placeholder parsing and resolution,
  recursive traceback (`fetch_last`), assignment policy, and formula application.

Python scalar UDF values are modelled by `Value` (strings, integers, and
floats-as-rationals); Python exceptions by `Except PyErr`; possible
non-termination of the `fetch_last` traceback loop by a fuel parameter whose
exhaustion is `Option.none`.  Log output (`logging.info` / `logging.warning`
payloads) is modelled as an explicit `List String` result component where a
claim refers to it.  Message texts follow the source but drop the Python
quote characters around interpolated names.
-/

set_option maxRecDepth 10000

namespace EppsModel

/-- A Python scalar value as stored in a LIMS UDF: string, int, or float
(floats idealized as rationals). -/
inductive Value where
  | str : String → Value
  | int : Int → Value
  | float : ℚ → Value
  deriving DecidableEq, Repr

/-- The Python exceptions that the modelled code can raise.
`skipCalculation` models the scripts' custom `SkipCalculation` exception. -/
inductive PyErr where
  | assertionError : String → PyErr
  | valueError : String → PyErr
  | notImplementedError : String → PyErr
  | typeError : String → PyErr
  | nameError : String → PyErr
  | indexError : String → PyErr
  | evalError : String → PyErr
  | skipCalculation : PyErr
  deriving DecidableEq, Repr

/-- Python truthiness of an optional UDF value: absent, `0`, `0.0` and `""`
are falsy, everything else truthy.  Used by `assign_val_to_placeholder`'s
`obj.udf.get(udf_name) and not overwrite` test. -/
def pyTruthy : Option Value → Bool
  | none => false
  | some (.str s) => !(s == "")
  | some (.int n) => !(n == 0)
  | some (.float q) => decide (q ≠ 0)

/-- The single-quote character (`'`, codepoint 39). -/
def squote : Char := Char.ofNat 39

/-- The single-quote character as a one-character string. -/
def sq : String := String.mk [squote]

/-- Opening curly brace character (codepoint 123). -/
def obChar : Char := Char.ofNat 123

/-- Closing curly brace character (codepoint 125). -/
def cbChar : Char := Char.ofNat 125

/-- The literal two-character format slot used by `parse_formula`. -/
def slotStr : String := String.mk [obChar, cbChar]

/-- `listPrefixB pat s` is true when `pat` is a prefix of `s`. -/
def listPrefixB : List Char → List Char → Bool
  | [], _ => true
  | _ :: _, [] => false
  | a :: as, b :: bs => a == b && listPrefixB as bs

/-- A character of Python's `\s` class. -/
def isPySpace (c : Char) : Bool :=
  c == ' ' || c == '\t' || c == '\n' || c == '\r'
    || c == Char.ofNat 11 || c == Char.ofNat 12

/-- Python `str.strip()`: remove leading and trailing whitespace. -/
def pyStrip (s : String) : String :=
  String.mk (((s.data.dropWhile isPySpace).reverse.dropWhile isPySpace).reverse)

/-- Does the string start with an underscore (Python `s[0] == "_"`)? -/
def startsUnderscore (s : String) : Bool := listPrefixB ['_'] s.data

/-- Does `s` contain `pat` as a contiguous substring (Python `pat in s`)? -/
def containsAux (pat : List Char) : List Char → Bool
  | [] => listPrefixB pat []
  | c :: cs => listPrefixB pat (c :: cs) || containsAux pat cs

/-- String version of `containsAux`: Python's `pat in s`. -/
def strContains (s pat : String) : Bool := containsAux pat.data s.data

/-- Python `re.findall(r"'(.*?)'", s)`: the contents of successive
non-overlapping single-quoted spans, scanned left to right. -/
def findQuotedGo : List Char → Option (List Char) → List String
  | [], _ => []
  | c :: cs, none =>
    if c == squote then findQuotedGo cs (some []) else findQuotedGo cs none
  | c :: cs, some acc =>
    if c == squote then String.mk acc.reverse :: findQuotedGo cs none
    else findQuotedGo cs (some (c :: acc))

/-- The list of single-quoted names inside a placeholder string. -/
def findQuoted (s : String) : List String := findQuotedGo s.data none

/-- Suffix of `s` immediately after the first occurrence of `pat`
(`none` when `pat` does not occur). -/
def dropAfterAux (pat : List Char) : List Char → Option (List Char)
  | [] => if pat.isEmpty then some [] else none
  | c :: cs =>
    if listPrefixB pat (c :: cs) then some (List.drop pat.length (c :: cs))
    else dropAfterAux pat cs

/-- Chars of `s` strictly before the first occurrence of `pat`
(`none` when `pat` does not occur). -/
def takeUntilSub (pat : List Char) : List Char → Option (List Char)
  | [] => if pat.isEmpty then some [] else none
  | c :: cs =>
    if listPrefixB pat (c :: cs) then some []
    else (takeUntilSub pat cs).map (c :: ·)

/-- Python `re.search(r"\['(.*?)'\]", s)`'s captured group: the text between
the first `['` and the first following `']`. -/
def findBetween (s l r : String) : Option String :=
  (dropAfterAux l.data s.data).bind fun rest =>
    (takeUntilSub r.data rest).map String.mk

/-- Python `s.split(sep)[1]`: the text between the first occurrence of `sep`
and the next occurrence (or the end); `none` models the `IndexError` when
`sep` does not occur. -/
def splitIdx1 (sep s : String) : Option String :=
  (dropAfterAux sep.data s.data).map fun rest =>
    match takeUntilSub sep.data rest with
    | some pre => String.mk pre
    | none => String.mk rest

/-- Python `str.format`: substitute the strings `vals` for the successive
`{}` slots of the format string (extra slots are left verbatim). -/
def pyFormatGo : List Char → List String → List Char
  | [], _ => []
  | [c], _ => [c]
  | c1 :: c2 :: rest, vals =>
    if c1 == obChar && c2 == cbChar then
      match vals with
      | v :: vs => v.data ++ pyFormatGo rest vs
      | [] => c1 :: c2 :: pyFormatGo rest []
    else c1 :: pyFormatGo (c2 :: rest) vals

/-- String version of `pyFormatGo`. -/
def pyFormat (fstring : String) (vals : List String) : String :=
  String.mk (pyFormatGo fstring.data vals)

/-- Textbook Levenshtein recurrence, structurally recursive on a fuel
argument so that the kernel can evaluate it; every recursive call shortens
the combined length by at least one, so any fuel above `|xs| + |ys|` gives
the true distance. -/
def levFuel : Nat → List Char → List Char → Nat
  | 0, xs, ys => xs.length + ys.length
  | _ + 1, [], ys => ys.length
  | _ + 1, x :: xs, [] => (x :: xs).length
  | fuel + 1, x :: xs, y :: ys =>
    if x == y then levFuel fuel xs ys
    else 1 + min (levFuel fuel xs ys)
          (min (levFuel fuel (x :: xs) ys) (levFuel fuel xs (y :: ys)))

/-- Levenshtein edit distance on character lists, as computed by the
`Levenshtein.distance` library call used in the manifest script. -/
def lev (xs ys : List Char) : Nat := levFuel (xs.length + ys.length + 1) xs ys

/-- Levenshtein distance between strings. -/
def levS (a b : String) : Nat := lev a.data b.data

/-- Reverse-complement of a DNA string (`revcomp` in the source). -/
def revcomp (seq : String) : String :=
  String.mk ((seq.data.map fun c =>
    if c == 'A' then 'T' else if c == 'C' then 'G'
    else if c == 'G' then 'C' else if c == 'T' then 'A' else c).reverse)

/-- One row of the sample/controls dataframe handled by the manifest
generator, restricted to the columns `make_manifest` keeps. -/
structure Row where
  sampleName : String
  index1 : String
  index2 : String
  lane : String
  project : String
  recipe : String
  limsLabel : String
  settings : String
  deriving DecidableEq, Repr

/-- Distance between the `Index1+Index2` concatenations of two rows
(`check_pair_distance`'s non-flip branch). -/
def pairDist (r1 r2 : Row) : Nat :=
  levS (r1.index1 ++ r1.index2) (r2.index1 ++ r2.index2)

/-- `show_match`: base-by-base visual alignment of two equal-length
sequences. -/
def show_match (seq1 seq2 : String) : String :=
  let m := String.mk ((List.zip seq1.data seq2.data).map fun p =>
    if p.1 == p.2 then '|' else 'X')
  String.intercalate "\n" [seq1, m, seq2]

/-- The first line of a pair-distance warning. -/
def pairWarningHead (dist : Nat) (r1 r2 : Row) : String :=
  "Hamming distance " ++ toString dist ++ " between " ++ r1.sampleName
    ++ " and " ++ r2.sampleName

/-- The complete warning payload logged by `check_pair_distance` in the
non-flip case: the distance line, plus a base-by-base alignment exactly when
the two rows' concatenated index lengths are equal. -/
def pairWarning (r1 r2 : Row) : String :=
  if r1.index1.length + r1.index2.length
      == r2.index1.length + r2.index2.length then
    pairWarningHead (pairDist r1 r2) r1 r2 ++ "\n"
      ++ show_match (r1.index1 ++ "-" ++ r1.index2) (r2.index1 ++ "-" ++ r2.index2)
  else pairWarningHead (pairDist r1 r2) r1 r2

/-- One candidate of the `check_flips` branch: the distance, the two
compared dash-joined index pairs (the source joins and re-splits them on a
space, which is the identity for space-free DNA indices), and the flip
configuration name. -/
def flipEntry (s1i1 s1i2 s2i1 s2i2 : String × String) :
    Nat × (String × String) × String :=
  (levS s1i1.1 s2i1.1 + levS s1i2.1 s2i2.1,
   (s1i1.1 ++ "-" ++ s1i2.1, s2i1.1 ++ "-" ++ s2i2.1),
   s1i1.2 ++ "-" ++ s1i2.2 ++ " " ++ s2i1.2 ++ "-" ++ s2i2.2)

/-- All sixteen reverse-complement orientation combinations of two index
pairs, in the nesting order of the source. -/
def allFlips (row rowComp : Row) : List (Nat × (String × String) × String) :=
  ([(row.index1, "Index1"), (revcomp row.index1, "Index1_rc")].map fun s1i1 =>
    ([(row.index2, "Index2"), (revcomp row.index2, "Index2_rc")].map fun s1i2 =>
      ([(rowComp.index1, "Index1"), (revcomp rowComp.index1, "Index1_rc")].map fun s2i1 =>
        ([(rowComp.index2, "Index2"), (revcomp rowComp.index2, "Index2_rc")].map fun s2i2 =>
          flipEntry s1i1 s1i2 s2i1 s2i2)).flatten).flatten).flatten

/-- Python `min(flips, key=lambda x: x[0])`: first entry with minimal
distance. -/
def minByDist (hd : Nat × (String × String) × String)
    (tl : List (Nat × (String × String) × String)) :
    Nat × (String × String) × String :=
  tl.foldl (fun best x => if x.1 < best.1 then x else best) hd

/-- `check_pair_distance`: distance check between two manifest rows.
Returns the list of warning payloads logged (empty or a single string), or
the `AssertionError` raised for identical indices.  The warning logged just
before the distance-0 raise is dropped on the error path. -/
def check_pair_distance (row rowComp : Row) (checkFlips : Bool)
    (threshold : Nat) : Except PyErr (List String) :=
  let dcf : Nat × (String × String) × String :=
    if checkFlips then
      match allFlips row rowComp with
      | [] => (pairDist row rowComp,
               (row.index1 ++ "-" ++ row.index2, rowComp.index1 ++ "-" ++ rowComp.index2), "")
      | hd :: tl => minByDist hd tl
    else
      (pairDist row rowComp,
       (row.index1 ++ "-" ++ row.index2, rowComp.index1 ++ "-" ++ rowComp.index2), "")
  let dist := dcf.1
  if dist ≤ threshold then
    let warning :=
      if checkFlips then
        let flipLines :=
          ["Given: " ++ row.index1 ++ "-" ++ row.index2 ++ " <-> "
             ++ rowComp.index1 ++ "-" ++ rowComp.index2,
           "Distance: " ++ toString dist ++ " when flipped to " ++ dcf.2.2]
        let alignLines :=
          if row.index1.length + row.index2.length
              == rowComp.index1.length + rowComp.index2.length then
            [show_match dcf.2.1.1 dcf.2.1.2]
          else []
        String.intercalate "\n"
          (pairWarningHead dist row rowComp :: flipLines ++ alignLines)
      else pairWarning row rowComp
    if dist == 0 then .error (.assertionError "Identical indices detected.")
    else .ok [warning]
  else .ok []

/-- Inner loop of `check_distances`: check `r` against each later row. -/
def check_row_against (r : Row) (threshold : Nat) :
    List Row → Except PyErr (List String)
  | [] => .ok []
  | r2 :: rs =>
    match check_pair_distance r r2 false threshold with
    | .error e => .error e
    | .ok w1 =>
      match check_row_against r threshold rs with
      | .error e => .error e
      | .ok w2 => .ok (w1 ++ w2)

/-- `check_distances`: check all unordered pairs (`i < j`) of a row list,
with the source's default threshold 2. -/
def check_distances (threshold : Nat) : List Row → Except PyErr (List String)
  | [] => .ok []
  | r :: rs =>
    match check_row_against r threshold rs with
    | .error e => .error e
    | .ok w1 =>
      match check_distances threshold rs with
      | .error e => .error e
      | .ok w2 => .ok (w1 ++ w2)

/-- The distinct lanes of a row list, in order of first appearance
(`df.groupby("Lane")` group keys; key order does not affect the claims). -/
def lanesOf (rows : List Row) : List String := (rows.map Row.lane).dedup

/-- The rows of one lane, in dataframe order. -/
def laneGroup (rows : List Row) (l : String) : List Row :=
  rows.filter fun r => r.lane == l

/-- The per-lane groups of the dataframe. -/
def lane_groups (rows : List Row) : List (List Row) :=
  (lanesOf rows).map (laneGroup rows)

/-- Run `check_distances` over a list of lane groups in order, collecting
all warnings and raising at the first failing group. -/
def validate_go : List (List Row) → Except PyErr (List String)
  | [] => .ok []
  | g :: gs =>
    match check_distances 2 g with
    | .error e => .error e
    | .ok ws =>
      match validate_go gs with
      | .error e => .error e
      | .ok ws2 => .ok (ws ++ ws2)

/-- The per-lane index-collision check of `get_manifests` (lines 269-272):
`check_distances` on each lane group, collecting all warnings. -/
def validate_lanes (rows : List Row) : Except PyErr (List String) :=
  validate_go (lane_groups rows)

/-- Python `min` over a list of naturals: `ValueError` on the empty list. -/
def pymin : List Nat → Except PyErr Nat
  | [] => .error (.valueError "min() arg is an empty sequence")
  | x :: xs => .ok (xs.foldl min x)

/-- All ordered pairs `(i, j)` with `i < j` of a list, in loop order. -/
def ordPairs : List Row → List (Row × Row)
  | [] => []
  | r :: rs => rs.map (fun r2 => (r, r2)) ++ ordPairs rs

/-- All same-lane row pairs of the dataframe, lane by lane
(the pair multiset iterated by `get_custom_mistmatch_thresholds`). -/
def pairsOf (rows : List Row) : List (Row × Row) :=
  ((lane_groups rows).map ordPairs).flatten

/-- Index-1 distance of a pair. -/
def dist1 (p : Row × Row) : Nat := levS p.1.index1 p.2.index1

/-- Index-2 distance of a pair. -/
def dist2 (p : Row × Row) : Nat := levS p.1.index2 p.2.index2

/-- Total index distance of a pair. -/
def totalDist (p : Row × Row) : Nat := dist1 p + dist2 p

/-- `get_custom_mistmatch_thresholds`: default thresholds `(1, 1)`;
raise on a total pairwise distance of 0; reduce a threshold to 0 when the
minimum per-index distance is at or below 2.  The `min` of an empty pair
list raises `ValueError` (Python `min([])`). -/
def get_custom_mistmatch_thresholds (df : List Row) : Except PyErr (Nat × Nat) :=
  let ps := pairsOf df
  match pymin (ps.map totalDist) with
  | .error e => .error e
  | .ok tmin =>
    if tmin == 0 then .error (.assertionError "Total index distance of 0 detected.")
    else
      let i1 := match pymin (ps.map dist1) with
        | .ok m1 => if m1 ≤ 2 then 0 else 1
        | .error _ => 1
      let i2 := match pymin (ps.map dist2) with
        | .ok m2 => if m2 ≤ 2 then 0 else 1
        | .error _ => 1
      .ok (i1, i2)

/-- The per-step inputs of `make_manifest` that the source reads from the
LIMS process: the index cycle counts and the naming fields. -/
structure Params where
  idx1Cycles : Nat
  idx2Cycles : Nat
  rootName : String
  stepTypeName : String
  stepId : String
  deriving DecidableEq, Repr

/-- File name of one manifest flavor. -/
def manifestFileName (p : Params) (mtype : String) : String :=
  p.rootName ++ "_" ++ mtype ++ ".csv"

/-- The `[RUNVALUES]` section. -/
def runValuesSection (p : Params) (fileName : String) : String :=
  String.intercalate "\n"
    ["[RUNVALUES]", "KeyName, Value",
     "lims_step_name, " ++ p.stepTypeName,
     "lims_step_id, " ++ p.stepId,
     "manifest_file, " ++ fileName]

/-- The base `[SETTINGS]` section. -/
def settingsBase : String := String.intercalate "\n" ["[SETTINGS]", "SettingName, Value"]

/-- `[SETTINGS]` section with custom mismatch thresholds appended. -/
def settingsWith (i1 i2 : Nat) : String :=
  settingsBase ++ "\n" ++ String.intercalate "\n"
    ["I1MismatchThreshold, " ++ toString i1,
     "I2MismatchThreshold, " ++ toString i2]

/-- One CSV line of the `[SAMPLES]` section. -/
def rowCsvLine (r : Row) : String :=
  String.intercalate ","
    [r.sampleName, r.index1, r.index2, r.lane, r.project, r.recipe,
     r.limsLabel, r.settings]

/-- `df.to_csv(index=None, header=True)` for the manifest's column subset. -/
def dfToCsv (rows : List Row) : String :=
  "SampleName,Index1,Index2,Lane,Project,Recipe,lims_label,settings\n"
    ++ String.join (rows.map fun r => rowCsvLine r ++ "\n")

/-- Truncate `Index1` of a row to the cycle count (`x[:cycles]`). -/
def trimIndex1 (cycles : Nat) (r : Row) : Row :=
  { r with index1 := String.mk (r.index1.data.take cycles) }

/-- Truncate `Index2` of a row to the cycle count. -/
def trimIndex2 (cycles : Nat) (r : Row) : Row :=
  { r with index2 := String.mk (r.index2.data.take cycles) }

/-- The `logging.error` line for a too-short index. -/
def shortIdxLog (r : Row) (idxName val : String) (cycles : Nat) : String :=
  r.sampleName ++ " has " ++ idxName ++ " " ++ val ++ " of length "
    ++ toString val.length ++ " shorter than " ++ toString cycles ++ " cycles."

/-- The `logging.error` summary line for a skipped flavor with short
indexes. -/
def shortSkipLog (mtype : String) : String :=
  "Could not generate " ++ mtype
    ++ " manifest because indexes are shorter than the number of index cycles. Skipping."

/-- The `logging.info` line for a trimmed index. -/
def trimIdxLog (r : Row) (idxName val : String) (cycles : Nat) : String :=
  "Trimming " ++ r.sampleName ++ " " ++ idxName ++ " " ++ val ++ " of length "
    ++ toString val.length ++ " to " ++ toString cycles ++ " cycles."

/-- The `logging.error` line for a flavor skipped due to index collisions. -/
def collisionSkipLog (mtype : String) : String :=
  "Could not generate " ++ mtype ++ " manifest without index collisions. Skipping."

/-- The dataframe subset a flavor operates on: `phix` keeps only Control
rows, the other flavors keep everything. -/
def flavorSubset (rows : List Row) (mtype : String) : List Row :=
  if mtype == "phix" then rows.filter (fun r => r.project == "Control") else rows

/-- The trimmed/phix branch of `make_manifest`: subset the dataframe for
the flavor, fail the flavor (file contents `None`, errors logged) when any
index is shorter than its cycle count, truncate longer indexes with an info
log, then compute the custom mismatch thresholds — whose `AssertionError`
alone is converted into a skip; any other exception (notably the
`ValueError` from `min([])`) propagates. -/
def make_manifest_trim (rows : List Row) (p : Params) (mtype : String) :
    Except PyErr ((String × Option String) × List String) :=
  let fileName := manifestFileName p mtype
  let runValues := runValuesSection p fileName
  let df0 := flavorSubset rows mtype
  let short1 := df0.filter fun r => r.index1.length < p.idx1Cycles
  if !short1.isEmpty then
    .ok ((fileName, none),
      (short1.map fun r => shortIdxLog r "Index1" r.index1 p.idx1Cycles)
        ++ [shortSkipLog mtype])
  else
    let logs1 := (df0.filter fun r => p.idx1Cycles < r.index1.length).map
      fun r => trimIdxLog r "Index1" r.index1 p.idx1Cycles
    let df1 := df0.map (trimIndex1 p.idx1Cycles)
    let short2 := df1.filter fun r => r.index2.length < p.idx2Cycles
    if !short2.isEmpty then
      .ok ((fileName, none),
        logs1 ++ (short2.map fun r => shortIdxLog r "Index2" r.index2 p.idx2Cycles)
          ++ [shortSkipLog mtype])
    else
      let logs2 := (df1.filter fun r => p.idx2Cycles < r.index2.length).map
        fun r => trimIdxLog r "Index2" r.index2 p.idx2Cycles
      let df2 := df1.map (trimIndex2 p.idx2Cycles)
      let samples := "[SAMPLES]\n" ++ dfToCsv df2
      match get_custom_mistmatch_thresholds df2 with
      | .error (.assertionError m) =>
        .ok ((fileName, none), logs1 ++ logs2 ++ [m, collisionSkipLog mtype])
      | .error e => .error e
      | .ok (i1, i2) =>
        .ok ((fileName, some (String.intercalate "\n\n"
          [runValues, settingsWith i1 i2, samples])), logs1 ++ logs2)

/-- `make_manifest`: build one manifest flavor.  Returns the
`(file name, optional contents)` pair together with the log lines, or the
uncaught exception. -/
def make_manifest (rows : List Row) (p : Params) (mtype : String) :
    Except PyErr ((String × Option String) × List String) :=
  let fileName := manifestFileName p mtype
  let runValues := runValuesSection p fileName
  if mtype == "untrimmed" then
    .ok ((fileName, some (String.intercalate "\n\n"
      [runValues, settingsBase, "[SAMPLES]\n" ++ dfToCsv rows])), [])
  else if mtype == "trimmed" || mtype == "phix" then
    make_manifest_trim rows p mtype
  else if mtype == "empty" then
    .ok ((fileName, some (String.intercalate "\n\n" [runValues, settingsBase, ""])), [])
  else .error (.assertionError "Invalid manifest type.")

/-- The four manifest flavors, in build order. -/
def flavors : List String := ["untrimmed", "trimmed", "phix", "empty"]

/-- Build every flavor in order, stopping at the first uncaught exception. -/
def build_flavors (rows : List Row) (p : Params) :
    List String → Except PyErr (List (String × Option String))
  | [] => .ok []
  | t :: ts =>
    match make_manifest rows p t with
    | .error e => .error e
    | .ok (res, _) =>
      match build_flavors rows p ts with
      | .error e => .error e
      | .ok more => .ok (res :: more)

/-- The claim-relevant tail of `get_manifests` (lines 269-285): per-lane
distance validation followed by building the four flavors. -/
def get_manifests_model (rows : List Row) (p : Params) :
    Except PyErr (List (String × Option String)) :=
  match validate_lanes rows with
  | .error e => .error e
  | .ok _ => build_flavors rows p flavors

/-- The zip-writing loop of `main` (lines 549-556): a manifest is written
only when its contents are truthy; a `None` (or empty) content manifest is
skipped with a logged warning and no file is emitted. -/
def writeZip (ms : List (String × Option String)) : List (String × String) :=
  ms.filterMap fun nc =>
    match nc.2 with
    | some c => if c == "" then none else some (nc.1, c)
    | none => none

/-! ### The LIMS object world for the formula engine and `fetch_last` -/

/-- A LIMS artifact: its display name, its type (only `"Analyte"` artifacts
take part in input-output tuples), and its UDF dictionary. -/
@[ext]
structure Art where
  name : String
  typ : String
  udf : String → Option Value

/-- The slice of the LIMS object graph the scripts navigate: artifacts
indexed by numeric id, each artifact's parent process, each process's
input-output artifact tuples, each process type's configured sample-field
UDF names, and the current step's own UDF dictionary. -/
@[ext]
structure W where
  art : Nat → Art
  parentProc : Nat → Option Nat
  procTuples : Nat → List (Option Nat × Option Nat)
  procTypeUdfs : Nat → List String
  stepUdf : String → Option Value

/-- Update one key of a UDF store. -/
def updateStore (f : String → Option Value) (k : String) (v : Value) :
    String → Option Value :=
  fun q => if q == k then some v else f q

/-- The entity a placeholder addresses: an artifact or the step. -/
inductive ObjRef where
  | artifact : Nat → ObjRef
  | step : ObjRef
  deriving DecidableEq, Repr

/-- Read a UDF from the addressed entity (`obj.udf.get(name)`). -/
def objUdfGet (w : W) (o : ObjRef) (k : String) : Option Value :=
  match o with
  | .artifact a => (w.art a).udf k
  | .step => w.stepUdf k

/-- Write a UDF on the addressed entity (`obj.udf[name] = val; obj.put()`). -/
def objUdfSet (w : W) (o : ObjRef) (k : String) (v : Value) : W :=
  match o with
  | .artifact a =>
    { w with art := fun i =>
        if i == a then { w.art a with udf := updateStore (w.art a).udf k v }
        else w.art i }
  | .step => { w with stepUdf := updateStore w.stepUdf k v }

/-- Is an input-output tuple kept by `get_art_tuples` (both analytes, or a
single analyte paired with nothing)? -/
def tupleKeptB (w : W) (t : Option Nat × Option Nat) : Bool :=
  match t with
  | (some i, some o) => ((w.art i).typ == "Analyte") && ((w.art o).typ == "Analyte")
  | (some i, none) => (w.art i).typ == "Analyte"
  | (none, some o) => (w.art o).typ == "Analyte"
  | (none, none) => false

/-- The sort key of `get_art_tuples`: output name when present, else input
name. -/
def tupleSortKey (w : W) (t : Option Nat × Option Nat) : String :=
  match t.2 with
  | some o => (w.art o).name
  | none =>
    match t.1 with
    | some i => (w.art i).name
    | none => ""

/-- Insert into a key-sorted list. -/
def insertSorted (key : α → String) (x : α) : List α → List α
  | [] => [x]
  | y :: ys => if key y < key x then y :: insertSorted key x ys else x :: y :: ys

/-- Sort by string key (models Python `list.sort(key=...)`; the claims do
not depend on tie order). -/
def sortByKey (key : α → String) (l : List α) : List α :=
  l.foldr (insertSorted key) []

/-- `get_art_tuples`: the analyte input-output tuples of a process, sorted
by artifact name. -/
def get_art_tuples (w : W) (pid : Nat) : List (Option Nat × Option Nat) :=
  sortByKey (tupleSortKey w) ((w.procTuples pid).filter (tupleKeptB w))

/-- `process_has_udfs`: which of the target UDFs appear among the sample
fields configured for the process type.  (Only feeds a warning log in
`fetch_last`, which this model does not track.) -/
def process_has_udfs (w : W) (pid : Nat) (targets : List String) : List String :=
  ((w.procTypeUdfs pid).map fun f => targets.filter fun t => t == f).flatten

/-- Outcome of one iteration of `fetch_last`'s `while True` loop: either the
loop exits with a value or an exception, or it continues at the linked input
artifact. -/
inductive StepOut where
  | done : Except PyErr Value → StepOut
  | next : Nat → StepOut
  deriving Repr

/-- Value of the first target UDF present on an artifact. -/
def firstUdf (a : Art) : List String → Option Value
  | [] => none
  | u :: us =>
    match a.udf u with
    | some v => some v
    | none => firstUdf a us

/-- One iteration of the `fetch_last` traceback loop at artifact `a`, hop
counter `n`: search the target UDFs on the artifact (skipped on the first
hop when `include_current` is false), then follow the unique linked input of
the parent process, raising on a missing parent, empty tuple list
(`NotImplementedError`), missing link, or ambiguous links. -/
def fetch_step (w : W) (udfs : List String) (includeCurrent : Bool)
    (a : Nat) (n : Nat) : StepOut :=
  let art := w.art a
  let found := if !includeCurrent && n == 1 then none else firstUdf art udfs
  match found with
  | some v => .done (.ok v)
  | none =>
    match w.parentProc a with
    | none =>
      .done (.error (.assertionError ("Artifact " ++ art.name
        ++ " has no parent process linked and can't be traced back further.")))
    | some pp =>
      let tuples := get_art_tuples w pp
      if tuples.isEmpty then
        .done (.error (.notImplementedError
          "Parent process has no valid input-output links, traceback can't continue."))
      else
        let outMatched := tuples.filter fun t => t.2 == some a
        if outMatched.any fun t => t.1 == none then
          .done (.error (.typeError "NoneType object is not subscriptable"))
        else
          match outMatched.filterMap (fun t => t.1) with
          | [i] => .next i
          | [] =>
            .done (.error (.assertionError
              "Parent process has no input artifacts linked to the output artifact, can't traceback."))
          | _ =>
            .done (.error (.assertionError
              "Parent process has multiple input artifacts linked to the same output artifact, can't traceback."))

/-- The `while True` loop of `fetch_last`, indexed by fuel; `none` models
that the loop has not exited within `fuel` iterations (the source has no
max-hops or cycle guard, so exhausting every fuel is non-termination). -/
def fetch_last_loop (w : W) (udfs : List String) (includeCurrent : Bool) :
    Nat → Nat → Nat → Option (Except PyErr Value)
  | _, _, 0 => none
  | a, n, fuel + 1 =>
    match fetch_step w udfs includeCurrent a n with
    | .done r => some r
    | .next a' => fetch_last_loop w udfs includeCurrent a' (n + 1) fuel

/-- `fetch_last`: run the traceback loop and apply the `on_fail` policy:
`AssertionError` is converted to a raise (when `on_fail` is an exception
class) or to returning the fallback value `none`; other exceptions
propagate. -/
def fetch_last (w : W) (udfs : List String) (includeCurrent onFailRaises : Bool)
    (a : Nat) (fuel : Nat) : Option (Except PyErr (Option Value)) :=
  match fetch_last_loop w udfs includeCurrent a 1 fuel with
  | none => none
  | some (.ok v) => some (.ok (some v))
  | some (.error (.assertionError _)) =>
    if onFailRaises then
      some (.error (.assertionError ("Could not find matching UDF(s) ["
        ++ String.intercalate ", " udfs ++ "] for artifact " ++ (w.art a).name)))
    else some (.ok none)
  | some (.error e) => some (.error e)

/-- The traceback loop started at artifact `a` never exits, whatever the
fuel: the source's `while True` runs forever. -/
def FetchDiverges (w : W) (udfs : List String) (includeCurrent : Bool)
    (a : Nat) : Prop :=
  ∀ fuel, fetch_last_loop w udfs includeCurrent a 1 fuel = none

/-! ### Placeholder resolution and assignment -/

/-- The entities available to one formula application: input artifact,
output artifact (ids into the world), and whether the step was passed. -/
structure PEnv where
  artIn : Option Nat
  artOut : Option Nat
  stepPresent : Bool
  deriving DecidableEq, Repr

/-- The scope-selection chain shared by `get_val_from_placeholder` and
`assign_val_to_placeholder`: `"inp" in placeholder`, then `"outp"`, then
`"step"`; falling through leaves `obj` unbound (`NameError`). -/
def pickObj (ph : String) (env : PEnv) : Except PyErr ObjRef :=
  if strContains ph "inp" then
    match env.artIn with
    | some a => .ok (.artifact a)
    | none => .error (.assertionError "Input artifact not provided")
  else if strContains ph "outp" then
    match env.artOut with
    | some a => .ok (.artifact a)
    | none => .error (.assertionError "Output artifact not provided")
  else if strContains ph "step" then
    if env.stepPresent then .ok .step
    else .error (.assertionError "Step not provided")
  else .error (.nameError "local variable obj referenced before assignment")

/-- The entity-kind word used in log messages. -/
def objTypeName (ph : String) : String :=
  if strContains ph "inp" then "input artifact"
  else if strContains ph "outp" then "output artifact"
  else "step"

/-- Display name of the addressed entity for log messages. -/
def objDisplayName (w : W) (o : ObjRef) : String :=
  match o with
  | .artifact a => (w.art a).name
  | .step => "step"

/-- Resolve a single UDF name on the addressed entity: plain dictionary
lookup, or `fetch_last(obj, name, include_current=True, on_fail=None)` for
recursive placeholders (only legal on artifacts). -/
def resolveName (w : W) (recursive : Bool) (obj : ObjRef) (fuel : Nat)
    (name : String) : Option (Except PyErr (Option Value)) :=
  if recursive then
    match obj with
    | .step =>
      some (.error (.assertionError "Recursive UDF references only allowed for artifacts"))
    | .artifact a => fetch_last w [name] true false a fuel
  else some (.ok (objUdfGet w obj name))

/-- The priority loop of `get_val_from_placeholder`: try each name in
order, stopping at the first that resolves; `ok none` means every name came
back undefined. -/
def get_val_go (w : W) (recursive : Bool) (obj : ObjRef) (fuel : Nat) :
    List String → Option (Except PyErr (Option (String × Value)))
  | [] => some (.ok none)
  | nm :: nms =>
    match resolveName w recursive obj fuel nm with
    | none => none
    | some (.error e) => some (.error e)
    | some (.ok (some v)) => some (.ok (some (nm, v)))
    | some (.ok none) => get_val_go w recursive obj fuel nms

/-- String values are re-quoted before being substituted into the
expression passed to `eval`. -/
def pyQuote : Value → Value
  | .str s => .str (sq ++ s ++ sq)
  | v => v

/-- Plain rendering of a value for log messages. -/
def valShow : Value → String
  | .str s => s
  | .int n => toString n
  | .float q => toString q

/-- The `logging.info` message for an unresolvable placeholder. -/
def skipMsgFor (w : W) (ph : String) (obj : ObjRef) (names : List String) : String :=
  "Could not resolve any of UDFs " ++ String.intercalate ", " names
    ++ " for " ++ objTypeName ph ++ " " ++ objDisplayName w obj
    ++ ". Skipping calculation."

/-- The `logging.info` message naming which of several prioritized UDFs was
used. -/
def resolvedMsg (ph nm : String) (v : Value) : String :=
  "Resolved " ++ ph ++ " UDF " ++ nm ++ " to " ++ valShow v

/-- `get_val_from_placeholder`: parse the placeholder (leading `_` means
recursive, quoted spans are the prioritized UDF names), select the entity,
and return the first resolvable value (strings re-quoted) together with the
log lines; raises `SkipCalculation` when no name resolves. -/
def get_val_from_placeholder (w : W) (env : PEnv) (ph : String) (fuel : Nat) :
    Option (Except PyErr Value × List String) :=
  let recursive := startsUnderscore ph
  let names := findQuoted ph
  if names.isEmpty then
    some (.error (.assertionError
      ("Could not extract UDF names from placeholder " ++ ph)), [])
  else
    match pickObj ph env with
    | .error e => some (.error e, [])
    | .ok obj =>
      match get_val_go w recursive obj fuel names with
      | none => none
      | some (.error e) => some (.error e, [])
      | some (.ok none) =>
        some (.error .skipCalculation, [skipMsgFor w ph obj names])
      | some (.ok (some (nm, v))) =>
        let val := pyQuote v
        let logs := if names.length > 1 then [resolvedMsg ph nm val] else []
        some (.ok val, logs)

/-- `assign_val_to_placeholder`: extract the target UDF name (text between
the first `['` and the following `']`), select the entity, and write the
value — unless the currently stored value is truthy and `overwrite` is
false, in which case `SkipCalculation` is raised with an info log. -/
def assign_val_to_placeholder (w : W) (env : PEnv) (v : Value) (ph : String)
    (overwrite : Bool) : Except PyErr W × List String :=
  match findBetween ph ("[" ++ sq) (sq ++ "]") with
  | none =>
    (.error (.assertionError
      ("Could not extract UDF name from placeholder " ++ ph)), [])
  | some udfName =>
    match pickObj ph env with
    | .error e => (.error e, [])
    | .ok obj =>
      if pyTruthy (objUdfGet w obj udfName) && !overwrite then
        (.error .skipCalculation,
         ["UDF " ++ ph ++ " already exists and overwrite is False. Skipping calculation."])
      else (.ok (objUdfSet w obj udfName v), [])

/-! ### Right-hand-side evaluation and formula application -/

/-- Round a rational to an integer count of hundredths, ties to even
(Python's float formatting idealized over ℚ), computed on the numerator and
denominator so that the kernel can evaluate it. -/
def pyRound100 (q : ℚ) : Int :=
  let n := q.num * 100
  let d : Int := (q.den : Int)
  let f := Int.fdiv n d
  let rnum2 := 2 * (n - f * d)
  if rnum2 < d then f
  else if d < rnum2 then f + 1
  else if f % 2 == 0 then f else f + 1

/-- A rational rounded to two decimal places. -/
def pyRound2 (q : ℚ) : ℚ := mkRat (pyRound100 q) 100

/-- Two-digit zero-padding. -/
def pad2 (k : Nat) : String := if k < 10 then "0" ++ toString k else toString k

/-- Python `f"{value:.2f}"` for a rational. -/
def fmt2f (q : ℚ) : String :=
  let n := pyRound100 q
  let a := n.natAbs
  (if n < 0 then "-" else "") ++ toString (a / 100) ++ "." ++ pad2 (a % 100)

/-- The per-value rendering used for the logged calculation line: floats
are formatted to two decimals, ints and strings pass through. -/
def fmtVal2f : Value → String
  | .float q => fmt2f q
  | .int n => toString n
  | .str s => s

/-- Resolve the right-hand-side placeholders in order, accumulating values
and log lines; the first failure (notably `SkipCalculation`) aborts. -/
def resolve_rh (w : W) (env : PEnv) (fuel : Nat) :
    List String → Option (Except PyErr (List Value) × List String)
  | [] => some (.ok [], [])
  | ph :: phs =>
    match get_val_from_placeholder w env ph fuel with
    | none => none
    | some (.error e, lg) => some (.error e, lg)
    | some (.ok v, lg) =>
      match resolve_rh w env fuel phs with
      | none => none
      | some (.error e, lg2) => some (.error e, lg ++ lg2)
      | some (.ok vs, lg2) => some (.ok (v :: vs), lg ++ lg2)

/-- `eval_rh`: resolve the right-hand placeholders (all but the first),
split the formula at its separator, evaluate the substituted right-hand
side, and log the calculation line with floats formatted to two decimals.
Python's builtin `eval` on the substituted expression is the uninterpreted
parameter `evalFn`, applied to the right-hand format string and the
resolved values; the returned value is passed through unrounded. -/
def eval_rh (evalFn : String → List Value → Except PyErr Value) (w : W)
    (env : PEnv) (formulaFstring : String) (placeholders : List String)
    (fuel : Nat) : Option (Except PyErr Value × List String) :=
  match resolve_rh w env fuel (placeholders.drop 1) with
  | none => none
  | some (.error e, lg) => some (.error e, lg)
  | some (.ok rhValues, lg) =>
    let sep := if strContains formulaFstring "==" then "==" else "="
    match splitIdx1 sep formulaFstring with
    | none => some (.error (.indexError "list index out of range"), lg)
    | some rhPart =>
      let rhFstring := pyStrip rhPart
      match evalFn rhFstring rhValues with
      | .error e => some (.error e, lg ++ ["Could not evaluate: " ++ rhFstring])
      | .ok lhVal =>
        let calcLine := "    Calculation:  "
          ++ pyFormat formulaFstring ((lhVal :: rhValues).map fmtVal2f)
        some (.ok lhVal, lg ++ [calcLine])

/-- The body of one loop iteration of `apply_formula`: evaluate the
right-hand side, then assign to the first placeholder; `overwrite` is
derived from the separator (`==` means do not overwrite). -/
def apply_to_pairing (evalFn : String → List Value → Except PyErr Value)
    (w : W) (env : PEnv) (fstring : String) (phs : List String) (fuel : Nat) :
    Option (Except PyErr W × List String) :=
  let overwrite := !(strContains fstring "==")
  match eval_rh evalFn w env fstring phs fuel with
  | none => none
  | some (.error e, lg) => some (.error e, lg)
  | some (.ok v, lg) =>
    match phs with
    | [] => some (.error (.indexError "list index out of range"), lg)
    | ph0 :: _ =>
      let r := assign_val_to_placeholder w env v ph0 overwrite
      some (r.1, lg ++ r.2)

/-- One loop iteration with its `except SkipCalculation: continue` handler:
a skip leaves the world unchanged and is not an error. -/
def apply_caught (evalFn : String → List Value → Except PyErr Value)
    (w : W) (env : PEnv) (fstring : String) (phs : List String) (fuel : Nat) :
    Option (Except PyErr W × List String) :=
  match apply_to_pairing evalFn w env fstring phs fuel with
  | some (.error .skipCalculation, lg) => some (.ok w, lg)
  | r => r

/-- Prefix log lines onto a loop result. -/
def addLogs (lg : List String) :
    Option (Except PyErr W × List String) → Option (Except PyErr W × List String)
  | none => none
  | some (r, lg2) => some (r, lg ++ lg2)

/-- The per-pairing info header line. -/
def pairingHeader (w : W) (i o : Nat) : String :=
  "Calculations for input-output " ++ (w.art i).name ++ " --> " ++ (w.art o).name

/-- The artifact loop of `apply_formula` for `Standard`/`Add Labels` steps:
apply the formula to each input-output pairing in turn; `SkipCalculation`
abandons only the current pairing (state unchanged), any other exception
propagates out of the loop. -/
def apply_formula (evalFn : String → List Value → Except PyErr Value)
    (fstring : String) (phs : List String) (fuel : Nat) :
    W → List (Option Nat × Option Nat) → Option (Except PyErr W × List String)
  | w, [] => some (.ok w, [])
  | w, t :: rest =>
    match t with
    | (some i, some o) =>
      let env : PEnv := ⟨some i, some o, true⟩
      match apply_to_pairing evalFn w env fstring phs fuel with
      | none => none
      | some (.error .skipCalculation, lg) =>
        addLogs (pairingHeader w i o :: lg)
          (apply_formula evalFn fstring phs fuel w rest)
      | some (.error e, lg) => some (.error e, pairingHeader w i o :: lg)
      | some (.ok w', lg) =>
        addLogs (pairingHeader w i o :: lg)
          (apply_formula evalFn fstring phs fuel w' rest)
    | _ => some (.error (.typeError "NoneType object is not subscriptable"), [])

/-! ### `parse_formula`: placeholder extraction and the injection guard -/

/-- Match one of the scope tags `inp`, `outp`, `step` at the head of the
character list (regex alternation order of the source pattern). -/
def tagAt (s : List Char) : Option (List Char × List Char) :=
  if listPrefixB "inp".data s then some ("inp".data, s.drop 3)
  else if listPrefixB "outp".data s then some ("outp".data, s.drop 4)
  else if listPrefixB "step".data s then some ("step".data, s.drop 4)
  else none

/-- Scan the non-greedy `.*?\]` tail of the placeholder pattern: the
characters before the first `]`, failing on a newline (which `.` does not
match) or a missing `]`. -/
def takeToClose : List Char → Option (List Char × List Char)
  | [] => none
  | c :: cs =>
    if c == ']' then some ([], cs)
    else if c == '\n' then none
    else (takeToClose cs).map fun p => (c :: p.1, p.2)

/-- Match `(inp|outp|step)\[.*?\]` at the head of the list, returning the
matched text and the remainder. -/
def matchPlaceholderCore (s : List Char) : Option (List Char × List Char) :=
  match tagAt s with
  | none => none
  | some (tag, rest1) =>
    match rest1 with
    | '[' :: rest2 =>
      match takeToClose rest2 with
      | some (body, rest3) => some (tag ++ '[' :: (body ++ [']']), rest3)
      | none => none
    | _ => none

/-- Match the full placeholder pattern `_?(inp|outp|step)\[.*?\]` at the
head of the list (the optional `_` only helps when a tag follows it). -/
def matchPlaceholderAt (s : List Char) : Option (List Char × List Char) :=
  match s with
  | '_' :: rest =>
    (matchPlaceholderCore rest).map fun p => ('_' :: p.1, p.2)
  | _ => matchPlaceholderCore s

/-- `re.finditer`/`re.sub` over the placeholder pattern: collect the
non-overlapping matches left to right and replace each by the `{}` slot. -/
def placeholderScanGo : Nat → List Char → List String × List Char
  | 0, s => ([], s)
  | _, [] => ([], [])
  | fuel + 1, c :: cs =>
    match matchPlaceholderAt (c :: cs) with
    | some (ph, rest) =>
      let p := placeholderScanGo fuel rest
      (String.mk ph :: p.1, obChar :: cbChar :: p.2)
    | none =>
      let p := placeholderScanGo fuel cs
      (p.1, c :: p.2)

/-- Extract the placeholders of a formula and the slotted format string. -/
def placeholderScan (s : String) : List String × String :=
  let p := placeholderScanGo s.data.length s.data
  (p.1, String.mk p.2)

/-- `re.sub` of an alternation of literal words: at each position the first
literal in pattern order that matches is removed, scanning left to right —
so an earlier literal that is a prefix of a later one shadows it. -/
def litSubGo (lits : List (List Char)) : Nat → List Char → List Char
  | 0, s => s
  | _, [] => []
  | fuel + 1, c :: cs =>
    match lits.find? fun l => listPrefixB l (c :: cs) with
    | some l => litSubGo lits fuel (List.drop l.length (c :: cs))
    | none => c :: litSubGo lits fuel cs

/-- String version of `litSubGo`. -/
def litSub (lits : List String) (s : String) : String :=
  String.mk (litSubGo (lits.map String.data) s.data.length s.data)

/-- A character matched by the source's "pure math" class
`[=\d,\+\-\*\/\(\)\{\}\s]`. -/
def isMathChar (c : Char) : Bool :=
  c == '=' || c.isDigit || c == ',' || c == '+' || c == '-' || c == '*'
    || c == '/' || c == '(' || c == ')' || c == obChar || c == cbChar
    || c == ' ' || c == '\t' || c == '\n' || c == '\r'
    || c == Char.ofNat 11 || c == Char.ofNat 12

/-- Remove every pure-math character. -/
def mathStrip (s : String) : String :=
  String.mk (s.data.filter fun c => !isMathChar c)

/-- Number of `{}` slots in a string. -/
def countSlots : List Char → Nat
  | [] => 0
  | [_] => 0
  | c1 :: c2 :: rest =>
    if c1 == obChar && c2 == cbChar then 1 + countSlots rest
    else countSlots (c2 :: rest)

/-- The allow-listed function names, in the source's `allowed_functions`
order (this order is what the regex alternation uses). -/
def allowed_function_names : List String :=
  ["ng_ul", "nM", "fmol_to_ng", "ng_to_fmol", "ng_ul_to_nM", "nM_to_ng_ul"]

/-- The allow-listed quoted unit strings. -/
def allowed_string_lits : List String :=
  [sq ++ "ng/ul" ++ sq, sq ++ "nM" ++ sq]

/-- The residue of a formula after the source's stripping pipeline:
placeholders to `{}`, then the function-name alternation, then the allowed
strings, then the pure-math characters. -/
def formulaResidue (formulaFstring : String) : String :=
  mathStrip (litSub allowed_string_lits (litSub allowed_function_names formulaFstring))

/-- `parse_formula`: extract placeholders, replace them by `{}` slots,
check the slot count, and reject the formula unless the stripped residue is
empty. -/
def parse_formula (formula : String) : Except PyErr (String × List String) :=
  let p := placeholderScan formula
  let placeholders := p.1
  let formulaFstring := p.2
  if countSlots formulaFstring.data != placeholders.length then
    .error (.assertionError ("Number of extracted UDF references ("
      ++ toString placeholders.length
      ++ ") do not match number of format placeholders ("
      ++ toString (countSlots formulaFstring.data) ++ ")"))
  else
    let stripped := formulaResidue formulaFstring
    if stripped == "" then .ok (formulaFstring, placeholders)
    else
      .error (.assertionError ("Formula " ++ formula
        ++ " appears to contain disallowed characters: " ++ stripped))

/-- Modelled from the spec: the stripping the specification (and the
script's own docstring) describes — whole allow-listed function names are
removed, so the residue of a formula that uses only placeholders, the six
allow-listed functions, the allowed unit strings and math characters
is empty.  Longest names first, so no name shadows another. -/
def parse_formula_spec_residue (formula : String) : String :=
  let p := placeholderScan formula
  mathStrip (litSub allowed_string_lits
    (litSub ["fmol_to_ng", "ng_to_fmol", "ng_ul_to_nM", "nM_to_ng_ul", "ng_ul", "nM"] p.2))

/-! ### Concrete inputs used to instantiate the theorems -/

/-- Two same-lane rows at edit distance 1 with different concatenated index
lengths (5 and 4). -/
def rxS1 : Row :=
  { sampleName := "S1", index1 := "ACGTA", index2 := "", lane := "1",
    project := "P", recipe := "0-0", limsLabel := "L", settings := "" }

/-- Companion row to `rxS1`. -/
def rxS2 : Row :=
  { sampleName := "S2", index1 := "ACGT", index2 := "", lane := "1",
    project := "P", recipe := "0-0", limsLabel := "L", settings := "" }

/-- Example process parameters. -/
def cP : Params :=
  { idx1Cycles := 4, idx2Cycles := 0, rootName := "root",
    stepTypeName := "stepT", stepId := "24-1" }

/-- Two same-lane rows with Index1 distance 1 and Index2 distance 0. -/
def r5a : Row :=
  { sampleName := "S1", index1 := "AAA", index2 := "CC", lane := "1",
    project := "P", recipe := "0-0", limsLabel := "L", settings := "" }

/-- Companion row to `r5a`. -/
def r5b : Row :=
  { sampleName := "S2", index1 := "AAT", index2 := "CC", lane := "1",
    project := "P", recipe := "0-0", limsLabel := "L", settings := "" }

/-- A sample row whose Index1 (3 bases) is shorter than 4 index cycles. -/
def c6S : Row :=
  { sampleName := "S1", index1 := "ACG", index2 := "", lane := "1",
    project := "P", recipe := "0-0", limsLabel := "L", settings := "" }

/-- A PhiX control row with a 4-base Index1. -/
def c6P1 : Row :=
  { sampleName := "PhiX_1", index1 := "AAAA", index2 := "", lane := "1",
    project := "Control", recipe := "0-0", limsLabel := "", settings := "" }

/-- A second PhiX control row. -/
def c6P2 : Row :=
  { sampleName := "PhiX_2", index1 := "TTTT", index2 := "", lane := "1",
    project := "Control", recipe := "0-0", limsLabel := "", settings := "" }

/-- A dataframe whose sample row is too short for the trimmed flavor while
the PhiX rows support the phix flavor. -/
def c6Rows : List Row := [c6S, c6P1, c6P2]

/-- A single-row dataframe: no lane has two rows. -/
def c10Row : Row :=
  { sampleName := "S1", index1 := "AC", index2 := "", lane := "1",
    project := "P", recipe := "0-0", limsLabel := "L", settings := "" }

/-- Parameters matching `c10Row`'s index lengths. -/
def c10P : Params :=
  { idx1Cycles := 2, idx2Cycles := 0, rootName := "r",
    stepTypeName := "t", stepId := "24-9" }

/-- An artifact with no UDFs. -/
def exArtEmpty : Art := { name := "D", typ := "Analyte", udf := fun _ => none }

/-- A world whose artifact 0 is output of its own parent process: the
backward linkage is a self-cycle. -/
def cw : W :=
  { art := fun _ => exArtEmpty,
    parentProc := fun _ => some 7,
    procTuples := fun p => if p == 7 then [(some 0, some 0)] else [],
    procTypeUdfs := fun _ => [],
    stepUdf := fun _ => none }

/-- Artifact holding the target UDF for the acyclic traceback example. -/
def awArt0 : Art :=
  { name := "A0", typ := "Analyte",
    udf := fun k => if k == "x" then some (.int 7) else none }

/-- The artifact the acyclic traceback starts from. -/
def awArt1 : Art := { name := "A1", typ := "Analyte", udf := fun _ => none }

/-- An acyclic world: artifact 1 is output of process 5 whose unique linked
input is artifact 0; artifact 0 has no parent. -/
def aw : W :=
  { art := fun i => if i == 0 then awArt0 else if i == 1 then awArt1 else exArtEmpty,
    parentProc := fun i => if i == 1 then some 5 else none,
    procTuples := fun p => if p == 5 then [(some 0, some 1)] else [],
    procTypeUdfs := fun _ => [],
    stepUdf := fun _ => none }

/-- Artifact with a priority-list scenario: `good` defined, `later` defined
with a different value, `missing` absent. -/
def w7Art : Art :=
  { name := "In3", typ := "Analyte",
    udf := fun k =>
      if k == "good" then some (.int 1)
      else if k == "later" then some (.int 999) else none }

/-- World for the priority-list resolution example. -/
def w7 : W :=
  { art := fun i => if i == 3 then w7Art else exArtEmpty,
    parentProc := fun _ => none, procTuples := fun _ => [],
    procTypeUdfs := fun _ => [], stepUdf := fun _ => none }

/-- Environment addressing artifact 3 as the input artifact. -/
def env7 : PEnv := { artIn := some 3, artOut := none, stepPresent := true }

/-- Placeholder with a three-name priority list. -/
def ph7 : String :=
  "inp[" ++ sq ++ "missing" ++ sq ++ "," ++ sq ++ "good" ++ sq ++ ","
    ++ sq ++ "later" ++ sq ++ "]"

/-- Placeholder whose single name is undefined on `w7`'s input artifact. -/
def ph7b : String := "inp[" ++ sq ++ "nope" ++ sq ++ "]"

/-- World for the skip-and-continue example: the output artifact 1 carries
`src`, the input artifact 0 carries nothing. -/
def w8 : W :=
  { art := fun i =>
      if i == 1 then
        { name := "Out1", typ := "Analyte",
          udf := fun k => if k == "src" then some (.int 2) else none }
      else { name := "In0", typ := "Analyte", udf := fun _ => none },
    parentProc := fun _ => none, procTuples := fun _ => [],
    procTypeUdfs := fun _ => [], stepUdf := fun _ => none }

/-- A right-hand placeholder that cannot resolve on `w8`'s input. -/
def ph8miss : String := "inp[" ++ sq ++ "missing" ++ sq ++ "]"

/-- Formula placeholders: write `outp['t']` from the unresolvable input. -/
def phs8 : List String := ["outp[" ++ sq ++ "t" ++ sq ++ "]", ph8miss]

/-- An evaluator standing for Python `eval`; returns a constant. -/
def evalAny : String → List Value → Except PyErr Value := fun _ _ => .ok (.int 0)

/-- World for the `==` policy: on the output artifact 1, `x` is defined but
falsy (0), `y` holds 5, `t` is truthy. -/
def w2 : W :=
  { art := fun i =>
      if i == 1 then
        { name := "Out1", typ := "Analyte",
          udf := fun k =>
            if k == "x" then some (.int 0)
            else if k == "y" then some (.int 5)
            else if k == "t" then some (.int 3) else none }
      else exArtEmpty,
    parentProc := fun _ => none, procTuples := fun _ => [],
    procTypeUdfs := fun _ => [], stepUdf := fun _ => none }

/-- Environment addressing artifact 1 as the output artifact. -/
def env2 : PEnv := { artIn := none, artOut := some 1, stepPresent := true }

/-- A `==` (non-overwriting) formula format string. -/
def f2 : String := slotStr ++ " == " ++ slotStr

/-- Target `outp['x']` (defined, falsy), source `outp['y']`. -/
def phs2 : List String :=
  ["outp[" ++ sq ++ "x" ++ sq ++ "]", "outp[" ++ sq ++ "y" ++ sq ++ "]"]

/-- Target `outp['z']` (undefined), source `outp['y']`. -/
def phs2b : List String :=
  ["outp[" ++ sq ++ "z" ++ sq ++ "]", "outp[" ++ sq ++ "y" ++ sq ++ "]"]

/-- Target `outp['t']` (defined, truthy), source `outp['y']`. -/
def phs2t : List String :=
  ["outp[" ++ sq ++ "t" ++ sq ++ "]", "outp[" ++ sq ++ "y" ++ sq ++ "]"]

/-- An evaluator standing for Python `eval` of an expression that is just
the single substituted value. -/
def evalPassFirst : String → List Value → Except PyErr Value := fun _ vs =>
  match vs with
  | v :: _ => .ok v
  | [] => .error (.evalError "no values")

/-- World for the rounding example: output artifact 0 carries `x = 7`. -/
def w3 : W :=
  { art := fun i =>
      if i == 0 then
        { name := "Out0", typ := "Analyte",
          udf := fun k => if k == "x" then some (.int 7) else none }
      else exArtEmpty,
    parentProc := fun _ => none, procTuples := fun _ => [],
    procTypeUdfs := fun _ => [], stepUdf := fun _ => none }

/-- Environment addressing artifact 0 as the output artifact. -/
def env3 : PEnv := { artIn := none, artOut := some 0, stepPresent := true }

/-- An overwriting formula format string with one right-hand placeholder. -/
def f3 : String := slotStr ++ " = " ++ slotStr ++ " / 3"

/-- Target `outp['A']`, source `outp['x']`. -/
def phs3 : List String :=
  ["outp[" ++ sq ++ "A" ++ sq ++ "]", "outp[" ++ sq ++ "x" ++ sq ++ "]"]

/-- An evaluator standing for Python `eval` of `7 / 3`-style division with a
non-terminating decimal expansion: returns the float `1/3`. -/
def evalConstThird : String → List Value → Except PyErr Value :=
  fun _ _ => .ok (.float (mkRat 1 3))

/-- A formula using the allow-listed function `nM_to_ng_ul`. -/
def f9bad : String :=
  "outp[" ++ sq ++ "A" ++ sq ++ "] = nM_to_ng_ul(outp[" ++ sq ++ "B" ++ sq
    ++ "], outp[" ++ sq ++ "C" ++ sq ++ "])"

/-- A formula using the allow-listed function `ng_to_fmol` (not shadowed). -/
def f9good : String :=
  "outp[" ++ sq ++ "A" ++ sq ++ "] = ng_to_fmol(outp[" ++ sq ++ "B" ++ sq
    ++ "], outp[" ++ sq ++ "C" ++ sq ++ "]) * 2"

/-! ## Theorems -/

/-- More fuel preserves a traceback loop result. -/
theorem fetch_last_loop_mono (w : W) (udfs : List String) (inc : Bool) :
    ∀ f1 f2 a n r, f1 ≤ f2 →
      fetch_last_loop w udfs inc a n f1 = some r →
      fetch_last_loop w udfs inc a n f2 = some r := by
  intro f1
  induction f1 with
  | zero => intro f2 a n r _ h; simp [fetch_last_loop] at h
  | succ f ih =>
    intro f2 a n r hle h
    match f2, hle with
    | f2 + 1, hle =>
      simp only [fetch_last_loop] at h ⊢
      cases hs : fetch_step w udfs inc a n with
      | done r' => simpa [hs] using h
      | next a' =>
        rw [hs] at h
        exact ih f2 a' (n + 1) r (Nat.succ_le_succ_iff.mp hle) h

/-- On the self-cycle world the traceback loop makes no progress at any
hop count. -/
theorem cw_loop_none : ∀ fuel n, fetch_last_loop cw ["x"] true 0 n fuel = none := by
  intro fuel
  induction fuel with
  | zero => intro n; rfl
  | succ f ih =>
    intro n
    have hs : fetch_step cw ["x"] true 0 n = .next 0 := rfl
    simp only [fetch_last_loop, hs]
    exact ih (n + 1)

/-- C4 counterexample: on a backward linkage graph containing a cycle
(artifact 0 linked as the unique input of its own parent process, target
UDF never defined) the `fetch_last` traceback loop never terminates — the
source's `while True` has no max-hops safety limit or cycle check, so the
claim's "for every backward input-linkage graph, including one containing a
cycle, the traceback walk terminates" is false. -/
theorem C4_counterexample : FetchDiverges cw ["x"] true 0 :=
  fun fuel => cw_loop_none fuel 1

/-- C4 (amended): on every backward linkage graph whose links strictly
decrease some rank (in particular every acyclic, finite processing
history), the `fetch_last` traceback loop terminates within `rank + 1`
hops, returning either the first defined value found along the chain or the
failure exception for a chain that cannot be continued; but the code has no
max-hops safety limit or cycle check, and on a cyclic linkage graph the
loop does not terminate. -/
theorem C4_amended (w : W) (udfs : List String) (inc : Bool) (rank : Nat → Nat)
    (hr : ∀ a n b, fetch_step w udfs inc a n = .next b → rank b < rank a) :
    ∀ a n, ∃ r, fetch_last_loop w udfs inc a n (rank a + 1) = some r := by
  have key : ∀ k a n, rank a ≤ k →
      ∃ r, fetch_last_loop w udfs inc a n (rank a + 1) = some r := by
    intro k
    induction k with
    | zero =>
      intro a n hk
      cases hs : fetch_step w udfs inc a n with
      | done r => exact ⟨r, by simp [fetch_last_loop, hs]⟩
      | next b => exact absurd (hr a n b hs) (by omega)
    | succ k ih =>
      intro a n hk
      cases hs : fetch_step w udfs inc a n with
      | done r => exact ⟨r, by simp [fetch_last_loop, hs]⟩
      | next b =>
        have hb : rank b < rank a := hr a n b hs
        obtain ⟨r, hrec⟩ := ih b (n + 1) (by omega)
        refine ⟨r, ?_⟩
        have hm := fetch_last_loop_mono w udfs inc (rank b + 1) (rank a) b (n + 1) r
          (by omega) hrec
        simp [fetch_last_loop, hs, hm]
  intro a n
  exact key (rank a) a n le_rfl

/-- C4 witness: on the concrete acyclic world `aw` (artifact 1 links back
to artifact 0, which has no parent), the traceback from artifact 1
terminates within 2 hops. -/
theorem C4_witness : ∃ r, fetch_last_loop aw ["x"] true 1 1 2 = some r := by
  have hr : ∀ a n b, fetch_step aw ["x"] true a n = .next b →
      (fun i => i) b < (fun i => i) a := by
    intro a n b h
    by_cases h0 : a = 0
    · subst h0
      have hs : fetch_step aw ["x"] true 0 n = .done (.ok (.int 7)) := rfl
      rw [hs] at h
      exact StepOut.noConfusion h
    by_cases h1 : a = 1
    · subst h1
      have hs : fetch_step aw ["x"] true 1 n = .next 0 := rfl
      rw [hs] at h
      injection h with hb
      simp [← hb]
    · have ha : aw.art a = exArtEmpty := by simp [aw, h0, h1]
      have hp : aw.parentProc a = none := by simp [aw, h1]
      simp [fetch_step, ha, hp, exArtEmpty, firstUdf] at h
  exact C4_amended aw ["x"] true (fun i => i) hr 1 1

/-- C9: the source's own stripping rejects the formula
`outp['A'] = nM_to_ng_ul(outp['B'], outp['C'])`, leaving the residue
`_to_`, because the regex alternation removes the prefixes `nM` and `ng_ul`
before the longer allow-listed names can match — even though the stripping
the claim (and the script's docstring) describes leaves an empty residue
for this formula. -/
theorem C9_code_behavior :
    parse_formula f9bad = .error (.assertionError ("Formula " ++ f9bad
      ++ " appears to contain disallowed characters: _to_"))
    ∧ parse_formula_spec_residue f9bad = ""
    ∧ litSub allowed_function_names "nM_to_ng_ul" = "_to_"
    ∧ litSub allowed_function_names "ng_ul_to_nM" = "_to_"
    ∧ (∃ fp, parse_formula f9good = .ok fp) := by
  refine ⟨rfl, rfl, rfl, rfl, ⟨_, rfl⟩⟩

/-- C3 (amended): the value produced by evaluating the right-hand side is
returned by `eval_rh` — and written to the target UDF — unchanged, at full
precision; the two-decimal formatting (`fmtVal2f`) appears only in the
logged calculation line.  (The claim's "rounded to 2 decimal places before
writing" is false; strings are indeed passed through verbatim.) -/
theorem C3_amended (evalFn : String → List Value → Except PyErr Value) (w : W)
    (env : PEnv) (fstring : String) (phs : List String) (fuel : Nat)
    (vs : List Value) (lg : List String) (rhPart : String) (v : Value)
    (ph0 : String) (phsR : List String) (tname : String) (tobj : ObjRef)
    (hres : resolve_rh w env fuel (phs.drop 1) = some (.ok vs, lg))
    (hsplit : splitIdx1 (if strContains fstring "==" then "==" else "=") fstring
      = some rhPart)
    (hev : evalFn (pyStrip rhPart) vs = .ok v) :
    eval_rh evalFn w env fstring phs fuel
      = some (.ok v, lg ++ ["    Calculation:  "
          ++ pyFormat fstring ((v :: vs).map fmtVal2f)])
    ∧ (phs = ph0 :: phsR →
        findBetween ph0 ("[" ++ sq) (sq ++ "]") = some tname →
        pickObj ph0 env = .ok tobj →
        strContains fstring "==" = false →
        apply_to_pairing evalFn w env fstring phs fuel
          = some (.ok (objUdfSet w tobj tname v),
              lg ++ ["    Calculation:  "
                ++ pyFormat fstring ((v :: vs).map fmtVal2f)])) := by
  have heval : eval_rh evalFn w env fstring phs fuel
      = some (.ok v, lg ++ ["    Calculation:  "
          ++ pyFormat fstring ((v :: vs).map fmtVal2f)]) := by
    rw [List.drop_one] at hres
    simp [eval_rh, hres, hsplit, hev]
  refine ⟨heval, ?_⟩
  intro hphs hname hobj hsep
  subst hphs
  simp [apply_to_pairing, heval, hsep, assign_val_to_placeholder, hname, hobj]

/-- C3 counterexample: with the right-hand side evaluating to the float
`1/3`, the value written to the target UDF is `1/3` itself — not `1/3`
rounded to 2 decimal places (`0.33 = 33/100`); the two-decimal rendering
appears only in the logged calculation line. -/
theorem C3_counterexample :
    (match apply_to_pairing evalConstThird w3 env3 f3 phs3 0 with
     | some (.ok w', _) => objUdfGet w' (.artifact 0) "A"
     | _ => none) = some (.float (mkRat 1 3))
    ∧ eval_rh evalConstThird w3 env3 f3 phs3 0
        = some (.ok (.float (mkRat 1 3)), ["    Calculation:  0.33 = 7 / 3"])
    ∧ pyRound2 (mkRat 1 3) = mkRat 33 100
    ∧ mkRat 1 3 ≠ pyRound2 (mkRat 1 3)
    ∧ Value.float (mkRat 1 3) ≠ Value.float (pyRound2 (mkRat 1 3)) := by
  refine ⟨by decide, by rfl, by decide, by decide, by decide⟩

/-- C3 witness: the amended theorem at the concrete inputs — formula
`outp['A'] = outp['x'] / 3` with `x = 7` and the evaluation producing the
float `1/3` writes `1/3` to `A` while logging `0.33`. -/
theorem C3_witness :
    apply_to_pairing evalConstThird w3 env3 f3 phs3 0
      = some (.ok (objUdfSet w3 (.artifact 0) "A" (.float (mkRat 1 3))),
          ["    Calculation:  0.33 = 7 / 3"]) := by
  have h := C3_amended evalConstThird w3 env3 f3 phs3 0 [.int 7] []
    (" " ++ slotStr ++ " / 3") (.float (mkRat 1 3))
    ("outp[" ++ sq ++ "A" ++ sq ++ "]")
    ["outp[" ++ sq ++ "x" ++ sq ++ "]"] "A" (.artifact 0)
    rfl rfl rfl
  have h2 := h.2 rfl rfl rfl rfl
  rw [h2]
  rfl

/-- Reading the key just written returns the written value. -/
theorem objUdfGet_set_same (w : W) (o : ObjRef) (k : String) (v : Value) :
    objUdfGet (objUdfSet w o k v) o k = some v := by
  cases o with
  | artifact a => simp [objUdfGet, objUdfSet, updateStore]
  | step => simp [objUdfGet, objUdfSet, updateStore]

/-- Writing one key leaves every other (entity, key) pair unchanged. -/
theorem objUdfGet_set_other (w : W) (o o' : ObjRef) (k k' : String) (v : Value)
    (h : o' ≠ o ∨ k' ≠ k) :
    objUdfGet (objUdfSet w o k v) o' k' = objUdfGet w o' k' := by
  cases o with
  | artifact a =>
    cases o' with
    | artifact b =>
      by_cases hb : b = a
      · subst hb
        have hk : k' ≠ k := by
          rcases h with h | h
          · exact absurd rfl h
          · exact h
        simp [objUdfGet, objUdfSet, updateStore, hk]
      · simp [objUdfGet, objUdfSet, hb]
    | step => simp [objUdfGet, objUdfSet]
  | step =>
    cases o' with
    | artifact b => simp [objUdfGet, objUdfSet]
    | step =>
      have hk : k' ≠ k := by
        rcases h with h | h
        · exact absurd rfl h
        · exact h
      simp [objUdfGet, objUdfSet, updateStore, hk]

/-- Writing a UDF does not change any artifact's name. -/
theorem art_set_name (w : W) (o : ObjRef) (k : String) (v : Value) (a : Nat) :
    ((objUdfSet w o k v).art a).name = (w.art a).name := by
  cases o with
  | artifact b =>
    by_cases hb : a = b
    · subst hb; simp [objUdfSet]
    · simp [objUdfSet, hb]
  | step => rfl

/-- Writing a UDF does not change display names. -/
theorem objDisplayName_set (w : W) (o : ObjRef) (k : String) (v : Value)
    (o2 : ObjRef) :
    objDisplayName (objUdfSet w o k v) o2 = objDisplayName w o2 := by
  cases o2 with
  | artifact a => simp [objDisplayName, art_set_name]
  | step => rfl

/-- Non-recursive single-name resolution is unaffected by a write to a
different (entity, key) pair. -/
theorem resolveName_frame (w : W) (o : ObjRef) (k : String) (v : Value)
    (o2 : ObjRef) (fuel : Nat) (nm : String) (h : o2 ≠ o ∨ nm ≠ k) :
    resolveName (objUdfSet w o k v) false o2 fuel nm
      = resolveName w false o2 fuel nm := by
  simp [resolveName, objUdfGet_set_other w o o2 k nm v h]

/-- The priority loop is unaffected by a write that no listed name can
read. -/
theorem get_val_go_frame (w : W) (o : ObjRef) (k : String) (v : Value)
    (o2 : ObjRef) (fuel : Nat) (ns : List String)
    (h : ∀ nm ∈ ns, o2 ≠ o ∨ nm ≠ k) :
    get_val_go (objUdfSet w o k v) false o2 fuel ns
      = get_val_go w false o2 fuel ns := by
  induction ns with
  | nil => rfl
  | cons nm ns ih =>
    simp only [get_val_go]
    rw [resolveName_frame w o k v o2 fuel nm (h nm (by simp))]
    cases hr : resolveName w false o2 fuel nm with
    | none => rfl
    | some r =>
      cases r with
      | error e => rfl
      | ok vr =>
        cases vr with
        | none => exact ih fun nm2 hm => h nm2 (by simp [hm])
        | some vv => rfl

/-- Placeholder resolution is unaffected by a write the placeholder's scope
and name list avoid. -/
theorem get_val_frame (w : W) (env : PEnv) (o : ObjRef) (k : String)
    (v : Value) (ph : String) (fuel : Nat)
    (hrec : startsUnderscore ph = false)
    (havoid : ∀ ob, pickObj ph env = .ok ob → ob ≠ o ∨ k ∉ findQuoted ph) :
    get_val_from_placeholder (objUdfSet w o k v) env ph fuel
      = get_val_from_placeholder w env ph fuel := by
  simp only [get_val_from_placeholder, hrec]
  by_cases hemp : (findQuoted ph).isEmpty
  · simp [hemp]
  · simp only [hemp, Bool.false_eq_true, if_neg, if_false]
    cases hobj : pickObj ph env with
    | error e => rfl
    | ok ob =>
      have hax : ∀ nm ∈ findQuoted ph, ob ≠ o ∨ nm ≠ k := by
        intro nm hm
        rcases havoid ob hobj with hL | hR
        · exact Or.inl hL
        · exact Or.inr fun he => hR (he ▸ hm)
      dsimp only
      rw [get_val_go_frame w o k v ob fuel (findQuoted ph) hax]
      cases hgo : get_val_go w false ob fuel (findQuoted ph) with
      | none => rfl
      | some r =>
        cases r with
        | error e => rfl
        | ok vr =>
          cases vr with
          | none => simp [skipMsgFor, objDisplayName_set]
          | some p => rfl

/-- Right-hand-side resolution is unaffected by a write every right-hand
placeholder avoids. -/
theorem resolve_rh_frame (w : W) (env : PEnv) (fuel : Nat) (o : ObjRef)
    (k : String) (v : Value) (phs : List String)
    (havoid : ∀ q ∈ phs, startsUnderscore q = false ∧
      (∀ ob, pickObj q env = .ok ob → ob ≠ o ∨ k ∉ findQuoted q)) :
    resolve_rh (objUdfSet w o k v) env fuel phs = resolve_rh w env fuel phs := by
  induction phs with
  | nil => rfl
  | cons q phs ih =>
    simp only [resolve_rh]
    rw [get_val_frame w env o k v q fuel (havoid q (by simp)).1
      (havoid q (by simp)).2]
    cases hq : get_val_from_placeholder w env q fuel with
    | none => rfl
    | some r =>
      cases r with
      | mk res lg =>
        cases res with
        | error e => rfl
        | ok vv =>
          rw [ih fun q2 hm => havoid q2 (by simp [hm])]

/-- Right-hand-side evaluation is unaffected by a write every right-hand
placeholder avoids. -/
theorem eval_rh_frame (evalFn : String → List Value → Except PyErr Value)
    (w : W) (env : PEnv) (fstring : String) (phs : List String) (fuel : Nat)
    (o : ObjRef) (k : String) (v : Value)
    (havoid : ∀ q ∈ phs.drop 1, startsUnderscore q = false ∧
      (∀ ob, pickObj q env = .ok ob → ob ≠ o ∨ k ∉ findQuoted q)) :
    eval_rh evalFn (objUdfSet w o k v) env fstring phs fuel
      = eval_rh evalFn w env fstring phs fuel := by
  simp only [eval_rh]
  rw [resolve_rh_frame w env fuel o k v (phs.drop 1) havoid]

/-- Updating the same key with the same value twice is one update. -/
theorem updateStore_idem (f : String → Option Value) (k : String) (v : Value) :
    updateStore (updateStore f k v) k v = updateStore f k v := by
  funext q
  simp only [updateStore]
  by_cases h : q == k <;> simp [h]

/-- Re-writing the value just written is the identity. -/
theorem objUdfSet_idem (w : W) (o : ObjRef) (k : String) (v : Value) :
    objUdfSet (objUdfSet w o k v) o k v = objUdfSet w o k v := by
  cases o with
  | artifact a =>
    simp only [objUdfSet]
    congr 1
    funext i
    by_cases h : i == a
    · simp only [h, if_pos]
      simp only [beq_self_eq_true, if_pos, updateStore_idem]
    · simp [h]
  | step =>
    simp only [objUdfSet]
    congr 1
    simp [updateStore_idem]

/-- Writing the value currently stored is the identity. -/
theorem objUdfSet_noop (w : W) (o : ObjRef) (k : String) (v : Value)
    (h : objUdfGet w o k = some v) :
    objUdfSet w o k v = w := by
  cases o with
  | artifact a =>
    simp only [objUdfGet] at h
    have hudf : updateStore (w.art a).udf k v = (w.art a).udf := by
      funext q
      simp only [updateStore]
      by_cases hq : q == k
      · have hq2 : q = k := by simpa using hq
        rw [if_pos hq, hq2, h]
      · rw [if_neg hq]
    simp only [objUdfSet, hudf]
    have harr : (fun i => if i == a then { w.art a with udf := (w.art a).udf }
        else w.art i) = w.art := by
      funext i
      by_cases hi : i == a
      · have hi2 : i = a := by simpa using hi
        rw [if_pos hi, hi2]
      · rw [if_neg hi]
    rw [harr]
  | step =>
    simp only [objUdfGet] at h
    have hudf : updateStore w.stepUdf k v = w.stepUdf := by
      funext q
      simp only [updateStore]
      by_cases hq : q == k
      · have hq2 : q = k := by simpa using hq
        rw [if_pos hq, hq2, h]
      · rw [if_neg hq]
    simp only [objUdfSet, hudf]

/-- Characterization of one formula application once the right-hand side
evaluated: with a `==` separator the assignment is skipped exactly when the
currently stored target value is truthy, else the value is written. -/
theorem apply_to_pairing_char (evalFn : String → List Value → Except PyErr Value)
    (w : W) (env : PEnv) (fstring ph0 : String) (phsR : List String)
    (fuel : Nat) (tname : String) (tobj : ObjRef) (v : Value) (lg : List String)
    (hsep : strContains fstring "==" = true)
    (hname : findBetween ph0 ("[" ++ sq) (sq ++ "]") = some tname)
    (hobj : pickObj ph0 env = .ok tobj)
    (hev : eval_rh evalFn w env fstring (ph0 :: phsR) fuel = some (.ok v, lg)) :
    apply_to_pairing evalFn w env fstring (ph0 :: phsR) fuel =
      if pyTruthy (objUdfGet w tobj tname) then
        some (.error .skipCalculation, lg ++ ["UDF " ++ ph0
          ++ " already exists and overwrite is False. Skipping calculation."])
      else some (.ok (objUdfSet w tobj tname v), lg) := by
  simp only [apply_to_pairing, hev, hsep, assign_val_to_placeholder, hname, hobj]
  by_cases ht : pyTruthy (objUdfGet w tobj tname)
  · simp [ht]
  · simp [ht]

/-- C2 (amended): for a `==` formula, the assignment is skipped — leaving
the stored value unchanged — exactly when the currently stored target value
is *truthy*; an undefined target receives the computed value, but so does a
target holding a falsy value such as `0` or `""` (which the claim said
would be skipped).  Re-running the same formula after a first successful
application leaves the target unchanged, provided the right-hand
placeholders do not read the target UDF. -/
theorem C2_amended (evalFn : String → List Value → Except PyErr Value)
    (w : W) (env : PEnv) (fstring ph0 : String) (phsR : List String)
    (fuel : Nat) (tname : String) (tobj : ObjRef)
    (hsep : strContains fstring "==" = true)
    (hname : findBetween ph0 ("[" ++ sq) (sq ++ "]") = some tname)
    (hobj : pickObj ph0 env = .ok tobj) :
    (∀ v lg, pyTruthy (objUdfGet w tobj tname) = true →
      eval_rh evalFn w env fstring (ph0 :: phsR) fuel = some (.ok v, lg) →
      apply_caught evalFn w env fstring (ph0 :: phsR) fuel
        = some (.ok w, lg ++ ["UDF " ++ ph0
            ++ " already exists and overwrite is False. Skipping calculation."]))
    ∧ (∀ v lg, objUdfGet w tobj tname = none →
      eval_rh evalFn w env fstring (ph0 :: phsR) fuel = some (.ok v, lg) →
      apply_caught evalFn w env fstring (ph0 :: phsR) fuel
        = some (.ok (objUdfSet w tobj tname v), lg))
    ∧ ((∀ q ∈ phsR, startsUnderscore q = false ∧
          (∀ ob, pickObj q env = .ok ob → ob ≠ tobj ∨ tname ∉ findQuoted q)) →
      ∀ w1 lg1, apply_caught evalFn w env fstring (ph0 :: phsR) fuel
          = some (.ok w1, lg1) →
      ∃ lg2, apply_caught evalFn w1 env fstring (ph0 :: phsR) fuel
          = some (.ok w1, lg2)) := by
  refine ⟨?_, ?_, ?_⟩
  · intro v lg ht hev
    rw [apply_caught, apply_to_pairing_char evalFn w env fstring ph0 phsR fuel
      tname tobj v lg hsep hname hobj hev, if_pos ht]
  · intro v lg hundef hev
    rw [apply_caught, apply_to_pairing_char evalFn w env fstring ph0 phsR fuel
      tname tobj v lg hsep hname hobj hev, if_neg (by simp [hundef, pyTruthy])]
  · intro havoid w1 lg1 h1
    have havoid2 : ∀ q ∈ (ph0 :: phsR).drop 1, startsUnderscore q = false ∧
        (∀ ob, pickObj q env = .ok ob → ob ≠ tobj ∨ tname ∉ findQuoted q) := by
      simpa using havoid
    cases hev : eval_rh evalFn w env fstring (ph0 :: phsR) fuel with
    | none =>
      rw [apply_caught, apply_to_pairing, hev] at h1
      simp at h1
    | some p =>
      obtain ⟨res, lg⟩ := p
      cases res with
      | error e =>
        have happ : apply_to_pairing evalFn w env fstring (ph0 :: phsR) fuel
            = some (.error e, lg) := by
          simp [apply_to_pairing, hev]
        by_cases he : e = .skipCalculation
        · subst he
          have hcaught : apply_caught evalFn w env fstring (ph0 :: phsR) fuel
              = some (.ok w, lg) := by
            rw [apply_caught, happ]
          rw [hcaught] at h1
          obtain ⟨hw, hl⟩ := by simpa using h1
          exact ⟨lg, by rw [← hw]; exact hcaught⟩
        · have hcaught : apply_caught evalFn w env fstring (ph0 :: phsR) fuel
              = some (.error e, lg) := by
            rw [apply_caught, happ]
            cases e <;> first | rfl | exact absurd rfl he
          rw [hcaught] at h1
          simp at h1
      | ok v =>
        have hchar := apply_to_pairing_char evalFn w env fstring ph0 phsR fuel
          tname tobj v lg hsep hname hobj hev
        by_cases ht : pyTruthy (objUdfGet w tobj tname)
        · have hcaught : apply_caught evalFn w env fstring (ph0 :: phsR) fuel
              = some (.ok w, lg ++ ["UDF " ++ ph0
                ++ " already exists and overwrite is False. Skipping calculation."]) := by
            rw [apply_caught, hchar, if_pos ht]
          rw [hcaught] at h1
          obtain ⟨hw, hl⟩ := by simpa using h1
          exact ⟨lg ++ ["UDF " ++ ph0
            ++ " already exists and overwrite is False. Skipping calculation."],
            by rw [← hw]; exact hcaught⟩
        · rw [apply_caught, hchar, if_neg ht] at h1
          obtain ⟨hw, hl⟩ := by simpa using h1
          have hev2 : eval_rh evalFn w1 env fstring (ph0 :: phsR) fuel
              = some (.ok v, lg) := by
            rw [← hw, eval_rh_frame evalFn w env fstring (ph0 :: phsR) fuel
              tobj tname v havoid2, hev]
          have hchar2 := apply_to_pairing_char evalFn w1 env fstring ph0 phsR fuel
            tname tobj v lg hsep hname hobj hev2
          have hget : objUdfGet w1 tobj tname = some v := by
            rw [← hw]; exact objUdfGet_set_same w tobj tname v
          by_cases ht2 : pyTruthy (objUdfGet w1 tobj tname)
          · refine ⟨lg ++ ["UDF " ++ ph0
              ++ " already exists and overwrite is False. Skipping calculation."], ?_⟩
            rw [apply_caught, hchar2, if_pos ht2]
          · refine ⟨lg, ?_⟩
            rw [apply_caught, hchar2, if_neg ht2]
            have : objUdfSet w1 tobj tname v = w1 := objUdfSet_noop w1 tobj tname v hget
            rw [this]

/-- C2 counterexample: on a target UDF holding the *falsy* defined value
`0`, a `==` formula does not skip — it overwrites the stored `0` with the
computed value `5`, contradicting "if the target UDF is already defined
(with any value, including falsy ones such as 0 ...) the assignment is
silently skipped leaving the stored value unchanged". -/
theorem C2_counterexample :
    objUdfGet w2 (.artifact 1) "x" = some (.int 0)
    ∧ apply_caught evalPassFirst w2 env2 f2 phs2 0
        = some (.ok (objUdfSet w2 (.artifact 1) "x" (.int 5)),
            ["    Calculation:  5 == 5"])
    ∧ objUdfGet (objUdfSet w2 (.artifact 1) "x" (.int 5)) (.artifact 1) "x"
        = some (.int 5)
    ∧ some (Value.int 5) ≠ some (Value.int 0) := by
  refine ⟨rfl, by rfl, by rfl, by decide⟩

/-- C2 witness: the amended theorem at concrete inputs — a truthy target is
skipped, an undefined target is written, and re-application fixes the
resulting state. -/
theorem C2_witness :
    apply_caught evalPassFirst w2 env2 f2 phs2t 0
      = some (.ok w2, ["    Calculation:  5 == 5",
          "UDF " ++ ("outp[" ++ sq ++ "t" ++ sq ++ "]")
            ++ " already exists and overwrite is False. Skipping calculation."])
    ∧ apply_caught evalPassFirst w2 env2 f2 phs2b 0
        = some (.ok (objUdfSet w2 (.artifact 1) "z" (.int 5)),
            ["    Calculation:  5 == 5"])
    ∧ (∃ lg2, apply_caught evalPassFirst (objUdfSet w2 (.artifact 1) "z" (.int 5))
        env2 f2 phs2b 0
        = some (.ok (objUdfSet w2 (.artifact 1) "z" (.int 5)), lg2)) := by
  refine ⟨?_, ?_, ?_⟩
  · exact (C2_amended evalPassFirst w2 env2 f2
      ("outp[" ++ sq ++ "t" ++ sq ++ "]") ["outp[" ++ sq ++ "y" ++ sq ++ "]"]
      0 "t" (.artifact 1) rfl rfl rfl).1 (.int 5) ["    Calculation:  5 == 5"]
      rfl (by rfl)
  · exact (C2_amended evalPassFirst w2 env2 f2
      ("outp[" ++ sq ++ "z" ++ sq ++ "]") ["outp[" ++ sq ++ "y" ++ sq ++ "]"]
      0 "z" (.artifact 1) rfl rfl rfl).2.1 (.int 5) ["    Calculation:  5 == 5"]
      rfl (by rfl)
  · exact (C2_amended evalPassFirst w2 env2 f2
      ("outp[" ++ sq ++ "z" ++ sq ++ "]") ["outp[" ++ sq ++ "y" ++ sq ++ "]"]
      0 "z" (.artifact 1) rfl rfl rfl).2.2
      (by
        intro q hq
        simp only [List.mem_singleton] at hq
        subst hq
        exact ⟨rfl, fun ob _ => Or.inr (by decide)⟩)
      (objUdfSet w2 (.artifact 1) "z" (.int 5)) ["    Calculation:  5 == 5"]
      (by rfl)

/-- The priority loop returns the first name that resolves, never
consulting later names. -/
theorem get_val_go_first (w : W) (rec : Bool) (obj : ObjRef) (fuel : Nat)
    (pre post : List String) (nm : String) (v : Value)
    (hpre : ∀ m ∈ pre, resolveName w rec obj fuel m = some (.ok none))
    (hnm : resolveName w rec obj fuel nm = some (.ok (some v))) :
    get_val_go w rec obj fuel (pre ++ nm :: post) = some (.ok (some (nm, v))) := by
  induction pre with
  | nil => simp [get_val_go, hnm]
  | cons m pre ih =>
    simp only [List.cons_append, get_val_go]
    rw [hpre m (by simp)]
    exact ih fun m2 hm => hpre m2 (by simp [hm])

/-- The priority loop exhausts a list of unresolvable names. -/
theorem get_val_go_none (w : W) (rec : Bool) (obj : ObjRef) (fuel : Nat)
    (ns : List String)
    (hall : ∀ m ∈ ns, resolveName w rec obj fuel m = some (.ok none)) :
    get_val_go w rec obj fuel ns = some (.ok none) := by
  induction ns with
  | nil => rfl
  | cons m ns ih =>
    simp only [get_val_go]
    rw [hall m (by simp)]
    exact ih fun m2 hm => hall m2 (by simp [hm])

/-- C7: for a placeholder carrying a priority list of UDF names, resolution
returns the (re-quoted) value of the first name that resolves on the
addressed entity — for recursive placeholders, resolution of one name is the
full `fetch_last` traceback — and later names are never consulted: the first
conjunct holds with no hypothesis at all about the names in `post` or their
values.  If no name resolves, the outcome is `SkipCalculation`
("unresolvable") with an info log. -/
theorem C7_priority_resolution (w : W) (env : PEnv) (ph : String) (fuel : Nat)
    (obj : ObjRef) (pre post : List String) (nm : String) (v : Value)
    (hobj : pickObj ph env = .ok obj)
    (hnames : findQuoted ph = pre ++ nm :: post) :
    ((∀ m ∈ pre, resolveName w (startsUnderscore ph) obj fuel m = some (.ok none)) →
      resolveName w (startsUnderscore ph) obj fuel nm = some (.ok (some v)) →
      ∃ lgs, get_val_from_placeholder w env ph fuel = some (.ok (pyQuote v), lgs))
    ∧ ((∀ m ∈ pre ++ nm :: post,
          resolveName w (startsUnderscore ph) obj fuel m = some (.ok none)) →
      get_val_from_placeholder w env ph fuel
        = some (.error .skipCalculation,
            [skipMsgFor w ph obj (pre ++ nm :: post)])) := by
  have hne : (pre ++ nm :: post).isEmpty = false := by cases pre <;> rfl
  constructor
  · intro hpre hnm
    refine ⟨if (pre ++ nm :: post).length > 1
      then [resolvedMsg ph nm (pyQuote v)] else [], ?_⟩
    simp only [get_val_from_placeholder, hnames, hne, Bool.false_eq_true,
      if_false, hobj]
    rw [get_val_go_first w (startsUnderscore ph) obj fuel pre post nm v hpre hnm]
  · intro hall
    simp only [get_val_from_placeholder, hnames, hne, Bool.false_eq_true,
      if_false, hobj]
    rw [get_val_go_none w (startsUnderscore ph) obj fuel (pre ++ nm :: post) hall]

/-- C7 witness: on the concrete store (`missing` absent, `good = 1`,
`later = 999`), the placeholder `inp['missing','good','later']` resolves to
`good`'s value 1, ignoring `later`; a placeholder whose only name is
undefined raises `SkipCalculation`. -/
theorem C7_witness :
    (∃ lgs, get_val_from_placeholder w7 env7 ph7 0 = some (.ok (.int 1), lgs))
    ∧ get_val_from_placeholder w7 env7 ph7b 0
        = some (.error .skipCalculation,
            [skipMsgFor w7 ph7b (.artifact 3) ["nope"]]) := by
  constructor
  · exact (C7_priority_resolution w7 env7 ph7 0 (.artifact 3) ["missing"]
      ["later"] "good" (.int 1) rfl rfl).1
      (by
        intro m hm
        simp only [List.mem_singleton] at hm
        subst hm
        rfl)
      rfl
  · exact (C7_priority_resolution w7 env7 ph7b 0 (.artifact 3) [] [] "nope"
      (.int 1) rfl rfl).2
      (by
        intro m hm
        simp only [List.nil_append, List.mem_singleton] at hm
        subst hm
        rfl)

/-- A `SkipCalculation` raised while resolving one right-hand placeholder
(after earlier placeholders resolved) aborts the whole right-hand
resolution with `SkipCalculation`, keeping the skip log. -/
theorem resolve_rh_skip (w : W) (env : PEnv) (fuel : Nat)
    (pre post : List String) (ph' : String) (lgS : List String)
    (hpre : ∀ q ∈ pre, ∃ v lg,
      get_val_from_placeholder w env q fuel = some (.ok v, lg))
    (hskip : get_val_from_placeholder w env ph' fuel
      = some (.error .skipCalculation, lgS)) :
    ∃ lg, resolve_rh w env fuel (pre ++ ph' :: post)
        = some (.error .skipCalculation, lg) ∧ ∀ m ∈ lgS, m ∈ lg := by
  induction pre with
  | nil => exact ⟨lgS, by simp [resolve_rh, hskip], fun m hm => hm⟩
  | cons q pre ih =>
    obtain ⟨v, lgq, hq⟩ := hpre q (by simp)
    obtain ⟨lg, hres, hmem⟩ := ih fun q2 hm => hpre q2 (by simp [hm])
    refine ⟨lgq ++ lg, ?_, fun m hm => by simp [hmem m hm]⟩
    simp only [List.cons_append, resolve_rh, hq, List.append_eq, hres]

/-- `apply_formula` never lets `SkipCalculation` escape the per-pairing
loop: every error it returns is some other exception. -/
theorem apply_formula_no_skip (evalFn : String → List Value → Except PyErr Value)
    (fstring : String) (phs : List String) (fuel : Nat) :
    ∀ (ps : List (Option Nat × Option Nat)) (w : W) (r : PyErr) (lg : List String),
      apply_formula evalFn fstring phs fuel w ps = some (.error r, lg) →
      r ≠ .skipCalculation := by
  intro ps
  induction ps with
  | nil =>
    intro w r lg h
    simp [apply_formula] at h
  | cons t rest ih =>
    intro w r lg h
    obtain ⟨iOpt, oOpt⟩ := t
    cases iOpt with
    | none =>
      simp only [apply_formula] at h
      obtain ⟨h1, -⟩ := by simpa using h
      subst h1
      simp
    | some i =>
      cases oOpt with
      | none =>
        simp only [apply_formula] at h
        obtain ⟨h1, -⟩ := by simpa using h
        subst h1
        simp
      | some o =>
        cases happ : apply_to_pairing evalFn w ⟨some i, some o, true⟩ fstring phs fuel with
        | none => simp [apply_formula, happ] at h
        | some p =>
          obtain ⟨res, lg2⟩ := p
          cases res with
          | ok w' =>
            simp only [apply_formula, happ] at h
            cases hrec : apply_formula evalFn fstring phs fuel w' rest with
            | none => rw [hrec] at h; simp [addLogs] at h
            | some p2 =>
              obtain ⟨r2, lg3⟩ := p2
              rw [hrec] at h
              simp only [addLogs] at h
              obtain ⟨h1, -⟩ := by simpa using h
              exact ih w' r lg3 (by rw [hrec, h1])
          | error e =>
            cases e
            case skipCalculation =>
              simp only [apply_formula, happ] at h
              cases hrec : apply_formula evalFn fstring phs fuel w rest with
              | none => rw [hrec] at h; simp [addLogs] at h
              | some p2 =>
                obtain ⟨r2, lg3⟩ := p2
                rw [hrec] at h
                simp only [addLogs] at h
                obtain ⟨h1, -⟩ := by simpa using h
                exact ih w r lg3 (by rw [hrec, h1])
            all_goals
              simp only [apply_formula, happ] at h
              obtain ⟨h1, -⟩ := by simpa using h
              subst h1
              simp

/-- C8: when a right-hand placeholder is unresolvable for the current
pairing (every earlier right-hand placeholder having resolved), the
application of the formula to that pairing ends in `SkipCalculation`
carrying the logged skip message; the per-pairing loop then continues with
the next pairing on the unchanged world, and no `SkipCalculation` ever
escapes the loop as an error (so subsequent formulas are processed). -/
theorem C8_skip_continues (evalFn : String → List Value → Except PyErr Value)
    (w : W) (i o : Nat) (rest : List (Option Nat × Option Nat))
    (fstring : String) (phs : List String) (fuel : Nat)
    (pre post : List String) (ph' : String) (lgS : List String)
    (hphs : phs.drop 1 = pre ++ ph' :: post)
    (hpre : ∀ q ∈ pre, ∃ v lg,
      get_val_from_placeholder w ⟨some i, some o, true⟩ q fuel = some (.ok v, lg))
    (hskip : get_val_from_placeholder w ⟨some i, some o, true⟩ ph' fuel
      = some (.error .skipCalculation, lgS)) :
    (∃ lg, apply_to_pairing evalFn w ⟨some i, some o, true⟩ fstring phs fuel
        = some (.error .skipCalculation, lg) ∧ ∀ m ∈ lgS, m ∈ lg)
    ∧ (∀ lg, apply_to_pairing evalFn w ⟨some i, some o, true⟩ fstring phs fuel
        = some (.error .skipCalculation, lg) →
      apply_formula evalFn fstring phs fuel w ((some i, some o) :: rest)
        = addLogs (pairingHeader w i o :: lg)
            (apply_formula evalFn fstring phs fuel w rest))
    ∧ (∀ ps w0 r lg,
        apply_formula evalFn fstring phs fuel w0 ps = some (.error r, lg) →
        r ≠ .skipCalculation) := by
  refine ⟨?_, ?_, apply_formula_no_skip evalFn fstring phs fuel⟩
  · obtain ⟨lg, hres, hmem⟩ :=
      resolve_rh_skip w ⟨some i, some o, true⟩ fuel pre post ph' lgS hpre hskip
    refine ⟨lg, ?_, hmem⟩
    rw [← hphs] at hres
    simp only [apply_to_pairing, eval_rh, hres]
  · intro lg h
    simp only [apply_formula, h]

/-- C8 witness: on the concrete world `w8`, the formula targeting
`outp['t']` from the unresolvable `inp['missing']` skips its single pairing
with the skip message logged, and the loop finishes normally with the world
unchanged. -/
theorem C8_witness :
    apply_to_pairing evalAny w8 ⟨some 0, some 1, true⟩ f2 phs8 0
      = some (.error .skipCalculation,
          ["Could not resolve any of UDFs missing for input artifact In0. Skipping calculation."])
    ∧ apply_formula evalAny f2 phs8 0 w8 [(some 0, some 1)]
      = some (.ok w8, ["Calculations for input-output In0 --> Out1",
          "Could not resolve any of UDFs missing for input artifact In0. Skipping calculation."]) := by
  have h := C8_skip_continues evalAny w8 0 1 [] f2 phs8 0 [] [] ph8miss
    ["Could not resolve any of UDFs missing for input artifact In0. Skipping calculation."]
    rfl (by intro q hq; exact absurd hq (by simp)) rfl
  have h1 : apply_to_pairing evalAny w8 ⟨some 0, some 1, true⟩ f2 phs8 0
      = some (.error .skipCalculation,
          ["Could not resolve any of UDFs missing for input artifact In0. Skipping calculation."]) := rfl
  refine ⟨h1, ?_⟩
  have h2 := h.2.1 _ h1
  rw [h2]
  rfl

/-- A fold of `min` is at most `k` exactly when some participant is. -/
theorem foldl_min_le_iff (xs : List Nat) (x k : Nat) :
    xs.foldl min x ≤ k ↔ x ≤ k ∨ ∃ y ∈ xs, y ≤ k := by
  induction xs generalizing x with
  | nil => simp
  | cons y ys ih =>
    simp only [List.foldl_cons]
    rw [ih, min_le_iff]
    constructor
    · rintro ((h | h) | ⟨z, hz, hzk⟩)
      · exact Or.inl h
      · exact Or.inr ⟨y, by simp, h⟩
      · exact Or.inr ⟨z, by simp [hz], hzk⟩
    · rintro (h | ⟨z, hz, hzk⟩)
      · exact Or.inl (Or.inl h)
      · rcases List.mem_cons.mp hz with rfl | hmem
        · exact Or.inl (Or.inr hzk)
        · exact Or.inr ⟨z, hmem, hzk⟩

/-- C5: with at least one same-lane pair present,
`get_custom_mistmatch_thresholds` raises exactly when some pair has total
distance 0; otherwise it returns 0 for index 1 exactly when some pair's
Index1 distance is at or below 2 and 1 otherwise, and independently the
same for index 2 — so `(1, 1)` is the default. -/
theorem C5_thresholds (df : List Row) (h : pairsOf df ≠ []) :
    ((∃ p ∈ pairsOf df, totalDist p = 0) →
      get_custom_mistmatch_thresholds df
        = .error (.assertionError "Total index distance of 0 detected."))
    ∧ ((∀ p ∈ pairsOf df, totalDist p ≠ 0) →
      get_custom_mistmatch_thresholds df
        = .ok ((if (pairsOf df).any (fun q => decide (dist1 q ≤ 2)) then 0 else 1),
               (if (pairsOf df).any (fun q => decide (dist2 q ≤ 2)) then 0 else 1))
      ∧ (((pairsOf df).any (fun q => decide (dist1 q ≤ 2))) = true
          ↔ ∃ q ∈ pairsOf df, dist1 q ≤ 2)
      ∧ (((pairsOf df).any (fun q => decide (dist2 q ≤ 2))) = true
          ↔ ∃ q ∈ pairsOf df, dist2 q ≤ 2)) := by
  obtain ⟨p0, ps, hps⟩ : ∃ p0 ps, pairsOf df = p0 :: ps := by
    cases hc : pairsOf df with
    | nil => exact absurd hc h
    | cons a l => exact ⟨a, l, rfl⟩
  have hany1 : ((pairsOf df).any (fun q => decide (dist1 q ≤ 2))) = true
      ↔ ∃ q ∈ pairsOf df, dist1 q ≤ 2 := by
    rw [List.any_eq_true]
    constructor
    · rintro ⟨q, hq, hd⟩
      exact ⟨q, hq, of_decide_eq_true hd⟩
    · rintro ⟨q, hq, hd⟩
      exact ⟨q, hq, decide_eq_true hd⟩
  have hany2 : ((pairsOf df).any (fun q => decide (dist2 q ≤ 2))) = true
      ↔ ∃ q ∈ pairsOf df, dist2 q ≤ 2 := by
    rw [List.any_eq_true]
    constructor
    · rintro ⟨q, hq, hd⟩
      exact ⟨q, hq, of_decide_eq_true hd⟩
    · rintro ⟨q, hq, hd⟩
      exact ⟨q, hq, decide_eq_true hd⟩
  constructor
  · rintro ⟨p, hp, hp0⟩
    have hzero : (ps.map totalDist).foldl min (totalDist p0) = 0 := by
      have hle : (ps.map totalDist).foldl min (totalDist p0) ≤ 0 := by
        rw [foldl_min_le_iff]
        rw [hps] at hp
        rcases List.mem_cons.mp hp with rfl | hmem
        · exact Or.inl (by omega)
        · exact Or.inr ⟨totalDist p, List.mem_map_of_mem _ hmem, by omega⟩
      omega
    simp only [get_custom_mistmatch_thresholds, hps, List.map_cons, pymin, hzero]
    rfl
  · intro hall
    have hnz : ((ps.map totalDist).foldl min (totalDist p0) == 0) = false := by
      rw [beq_eq_false_iff_ne]
      intro hzero
      have hle : (ps.map totalDist).foldl min (totalDist p0) ≤ 0 := by omega
      rw [foldl_min_le_iff] at hle
      rcases hle with h0 | ⟨y, hy, hy0⟩
      · exact hall p0 (by rw [hps]; simp) (by omega)
      · obtain ⟨q, hq, rfl⟩ := List.mem_map.mp hy
        exact hall q (by rw [hps]; simp [hq]) (by omega)
    have hi1 : (if (ps.map dist1).foldl min (dist1 p0) ≤ 2 then 0 else 1)
        = (if (pairsOf df).any (fun q => decide (dist1 q ≤ 2)) then 0 else 1) := by
      have hiff : (ps.map dist1).foldl min (dist1 p0) ≤ 2
          ↔ ((pairsOf df).any (fun q => decide (dist1 q ≤ 2))) = true := by
        rw [foldl_min_le_iff, hany1, hps]
        constructor
        · rintro (h0 | ⟨y, hy, hy2⟩)
          · exact ⟨p0, by simp, h0⟩
          · obtain ⟨q, hq, rfl⟩ := List.mem_map.mp hy
            exact ⟨q, by simp [hq], hy2⟩
        · rintro ⟨q, hq, hq2⟩
          rcases List.mem_cons.mp hq with rfl | hmem
          · exact Or.inl hq2
          · exact Or.inr ⟨dist1 q, List.mem_map_of_mem _ hmem, hq2⟩
      by_cases hc : (ps.map dist1).foldl min (dist1 p0) ≤ 2
      · rw [if_pos hc, if_pos (hiff.mp hc)]
      · rw [if_neg hc]
        rw [hiff] at hc
        rw [if_neg hc]
    have hi2 : (if (ps.map dist2).foldl min (dist2 p0) ≤ 2 then 0 else 1)
        = (if (pairsOf df).any (fun q => decide (dist2 q ≤ 2)) then 0 else 1) := by
      have hiff : (ps.map dist2).foldl min (dist2 p0) ≤ 2
          ↔ ((pairsOf df).any (fun q => decide (dist2 q ≤ 2))) = true := by
        rw [foldl_min_le_iff, hany2, hps]
        constructor
        · rintro (h0 | ⟨y, hy, hy2⟩)
          · exact ⟨p0, by simp, h0⟩
          · obtain ⟨q, hq, rfl⟩ := List.mem_map.mp hy
            exact ⟨q, by simp [hq], hy2⟩
        · rintro ⟨q, hq, hq2⟩
          rcases List.mem_cons.mp hq with rfl | hmem
          · exact Or.inl hq2
          · exact Or.inr ⟨dist2 q, List.mem_map_of_mem _ hmem, hq2⟩
      by_cases hc : (ps.map dist2).foldl min (dist2 p0) ≤ 2
      · rw [if_pos hc, if_pos (hiff.mp hc)]
      · rw [if_neg hc]
        rw [hiff] at hc
        rw [if_neg hc]
    refine ⟨?_, hany1, hany2⟩
    simp only [get_custom_mistmatch_thresholds, hps, List.map_cons, pymin, hnz,
      Bool.false_eq_true, if_false]
    rw [← hps, ← hi1, ← hi2]

/-- C5 witness: two same-lane rows with Index1 distance 1 and Index2
distance 0 (total 1): both thresholds are reduced to 0. -/
theorem C5_witness :
    pairsOf [r5a, r5b] ≠ []
    ∧ get_custom_mistmatch_thresholds [r5a, r5b] = .ok (0, 0) := by
  have h := (C5_thresholds [r5a, r5b] (by decide)).2 (by decide)
  refine ⟨by decide, ?_⟩
  rw [h.1]
  rfl

/-- A filter whose predicate holds nowhere is empty. -/
theorem filter_eq_nil_of {α : Type} (p : α → Bool) (l : List α)
    (h : ∀ a ∈ l, p a = false) : l.filter p = [] := by
  induction l with
  | nil => rfl
  | cons a t ih =>
    rw [List.filter_cons]
    simp only [h a (by simp), Bool.false_eq_true, if_false]
    exact ih fun b hb => h b (by simp [hb])

/-- Lane groups in which no two rows coexist yield no pairs. -/
theorem pairsOf_eq_nil (rows : List Row)
    (h : ∀ g ∈ lane_groups rows, g.length ≤ 1) : pairsOf rows = [] := by
  have key : ∀ gs : List (List Row), (∀ g ∈ gs, g.length ≤ 1) →
      (gs.map ordPairs).flatten = [] := by
    intro gs
    induction gs with
    | nil => intro _; rfl
    | cons g gs ih =>
      intro hg
      simp only [List.map_cons, List.flatten_cons]
      rw [ih fun g2 hm => hg g2 (by simp [hm])]
      have hord : ordPairs g = [] := by
        cases g with
        | nil => rfl
        | cons x t =>
          cases t with
          | nil => rfl
          | cons y t2 =>
            have := hg (x :: y :: t2) (by simp)
            simp [List.length_cons] at this
      simp [hord]
  exact key (lane_groups rows) h

/-- `get_custom_mistmatch_thresholds` on a dataframe with no same-lane pair
raises the `ValueError` of Python's `min([])`. -/
theorem get_custom_empty_pairs (df : List Row) (h : pairsOf df = []) :
    get_custom_mistmatch_thresholds df
      = .error (.valueError "min() arg is an empty sequence") := by
  simp [get_custom_mistmatch_thresholds, h, pymin]

/-- Filtering a lane group commutes with a lane-preserving row map. -/
theorem laneGroup_map (f : Row → Row) (hf : ∀ r, (f r).lane = r.lane)
    (rows : List Row) (l : String) :
    laneGroup (rows.map f) l = (laneGroup rows l).map f := by
  induction rows with
  | nil => rfl
  | cons r rs ih =>
    simp only [List.map_cons, laneGroup, List.filter_cons] at ih ⊢
    rw [hf r]
    by_cases hl : (r.lane == l) = true
    · simp only [hl, if_true, List.map_cons]
      rw [← ih]
    · simp only [hl, Bool.false_eq_true, if_false]
      rw [← ih]

/-- The lane key set is invariant under a lane-preserving row map. -/
theorem lanesOf_map (f : Row → Row) (hf : ∀ r, (f r).lane = r.lane)
    (rows : List Row) : lanesOf (rows.map f) = lanesOf rows := by
  unfold lanesOf
  rw [List.map_map]
  congr 1
  exact congrArg (fun g => List.map g rows) (funext fun r => hf r)

/-- Lane groups commute with a lane-preserving row map. -/
theorem lane_groups_map (f : Row → Row) (hf : ∀ r, (f r).lane = r.lane)
    (rows : List Row) :
    lane_groups (rows.map f) = (lane_groups rows).map fun g => g.map f := by
  unfold lane_groups
  rw [lanesOf_map f hf rows, List.map_map]
  have hlg : laneGroup (rows.map f) = fun l => (laneGroup rows l).map f :=
    funext (laneGroup_map f hf rows)
  rw [hlg]
  rfl

/-- `check_distances` is a no-op on lanes with at most one row. -/
theorem check_distances_short (g : List Row) (h : g.length ≤ 1) :
    check_distances 2 g = .ok [] := by
  cases g with
  | nil => rfl
  | cons x t =>
    cases t with
    | nil => rfl
    | cons y t2 => simp [List.length_cons] at h

/-- Validation passes over groups that each pass. -/
theorem validate_go_short (gs : List (List Row))
    (h : ∀ g ∈ gs, check_distances 2 g = .ok []) : validate_go gs = .ok [] := by
  induction gs with
  | nil => rfl
  | cons g gs ih =>
    simp only [validate_go]
    rw [h g (by simp), ih fun g2 hm => h g2 (by simp [hm])]
    rfl

/-- C10: on a row set in which no lane has two or more rows (and whose
indexes are not shorter than the cycle counts, so the trimmed flavor
reaches the threshold computation), `get_custom_mistmatch_thresholds`
raises the `ValueError` of `min([])`; `make_manifest`'s per-flavor handler
catches only `AssertionError`, so the `ValueError` propagates out of the
trimmed flavor and aborts the whole manifest generation instead of
skipping that flavor. -/
theorem C10_valueerror_aborts (rows : List Row) (p : Params)
    (hlane : ∀ g ∈ lane_groups rows, g.length ≤ 1)
    (hlen1 : ∀ r ∈ rows, p.idx1Cycles ≤ r.index1.length)
    (hlen2 : ∀ r ∈ rows, p.idx2Cycles ≤ r.index2.length) :
    get_custom_mistmatch_thresholds
        ((rows.map (trimIndex1 p.idx1Cycles)).map (trimIndex2 p.idx2Cycles))
      = .error (.valueError "min() arg is an empty sequence")
    ∧ make_manifest rows p "trimmed"
      = .error (.valueError "min() arg is an empty sequence")
    ∧ get_manifests_model rows p
      = .error (.valueError "min() arg is an empty sequence") := by
  have hl1 : ∀ r, (trimIndex1 p.idx1Cycles r).lane = r.lane := fun r => rfl
  have hl2 : ∀ r, (trimIndex2 p.idx2Cycles r).lane = r.lane := fun r => rfl
  have hlane2 : ∀ g ∈ lane_groups
      ((rows.map (trimIndex1 p.idx1Cycles)).map (trimIndex2 p.idx2Cycles)),
      g.length ≤ 1 := by
    intro g hg
    rw [lane_groups_map _ hl2, lane_groups_map _ hl1] at hg
    obtain ⟨g1, hg1, rfl⟩ := List.mem_map.mp hg
    obtain ⟨g0, hg0, rfl⟩ := List.mem_map.mp hg1
    simpa using hlane g0 hg0
  have hget := get_custom_empty_pairs _ (pairsOf_eq_nil _ hlane2)
  have hmm : make_manifest rows p "trimmed"
      = .error (.valueError "min() arg is an empty sequence") := by
    have e1 : make_manifest rows p "trimmed" = make_manifest_trim rows p "trimmed" := rfl
    rw [e1]
    simp only [make_manifest_trim]
    have hsub : flavorSubset rows "trimmed" = rows := rfl
    rw [hsub]
    have hf1 : rows.filter (fun r => r.index1.length < p.idx1Cycles) = [] := by
      apply filter_eq_nil_of
      intro r hr
      have := hlen1 r hr
      simp only [decide_eq_false_iff_not]
      omega
    have hf2 : (rows.map (trimIndex1 p.idx1Cycles)).filter
        (fun r => r.index2.length < p.idx2Cycles) = [] := by
      apply filter_eq_nil_of
      intro r hr
      obtain ⟨r0, hr0, rfl⟩ := List.mem_map.mp hr
      have := hlen2 r0 hr0
      simp only [decide_eq_false_iff_not]
      simp only [trimIndex1]
      omega
    rw [hf1]
    simp only [List.isEmpty_nil, Bool.not_true, Bool.false_eq_true, if_false]
    rw [hf2]
    simp only [List.isEmpty_nil, Bool.not_true, Bool.false_eq_true, if_false]
    rw [hget]
  refine ⟨hget, hmm, ?_⟩
  have hval : validate_lanes rows = .ok [] :=
    validate_go_short _ fun g hg => check_distances_short g (hlane g hg)
  simp only [get_manifests_model, hval]
  obtain ⟨res, hres⟩ : ∃ res, make_manifest rows p "untrimmed" = .ok res := ⟨_, rfl⟩
  simp only [flavors, build_flavors, hres, hmm]

/-- C10 witness: a single-sample, no-controls dataframe with matching cycle
counts makes the whole run abort with the `ValueError`. -/
theorem C10_witness :
    get_manifests_model [c10Row] c10P
      = .error (.valueError "min() arg is an empty sequence") :=
  (C10_valueerror_aborts [c10Row] c10P (by decide) (by decide) (by decide)).2.2

/-- A distance-0 pair makes `check_pair_distance` raise. -/
theorem cpd_zero (r1 r2 : Row) (t : Nat) (h : pairDist r1 r2 = 0) :
    check_pair_distance r1 r2 false t
      = .error (.assertionError "Identical indices detected.") := by
  simp [check_pair_distance, h]

/-- A nonzero-distance pair yields a warning exactly when the distance is
at or below the threshold. -/
theorem cpd_nonzero (r1 r2 : Row) (t : Nat) (h : pairDist r1 r2 ≠ 0) :
    check_pair_distance r1 r2 false t
      = if pairDist r1 r2 ≤ t then .ok [pairWarning r1 r2] else .ok [] := by
  simp only [check_pair_distance, Bool.false_eq_true, if_false]
  by_cases hle : pairDist r1 r2 ≤ t
  · rw [if_pos hle, if_pos hle]
    have hb : (pairDist r1 r2 == 0) = false := by simpa using h
    simp [hb]
  · rw [if_neg hle, if_neg hle]

/-- The only error `check_pair_distance` can raise in the non-flip mode is
the identical-indices assertion, and only at distance 0. -/
theorem cpd_error_elim (r1 r2 : Row) (t : Nat) (e : PyErr)
    (h : check_pair_distance r1 r2 false t = .error e) :
    e = .assertionError "Identical indices detected." ∧ pairDist r1 r2 = 0 := by
  by_cases hz : pairDist r1 r2 = 0
  · rw [cpd_zero r1 r2 t hz] at h
    injection h with he
    exact ⟨he.symm, hz⟩
  · rw [cpd_nonzero r1 r2 t hz] at h
    by_cases hle : pairDist r1 r2 ≤ t
    · rw [if_pos hle] at h; simp at h
    · rw [if_neg hle] at h; simp at h

/-- The inner pair loop collects the warning of every near pair when no
pair collides. -/
theorem cra_ok (r : Row) (t : Nat) (rs : List Row)
    (h : ∀ b ∈ rs, pairDist r b ≠ 0) :
    ∃ ws, check_row_against r t rs = .ok ws
      ∧ ∀ b ∈ rs, pairDist r b ≤ t → pairWarning r b ∈ ws := by
  induction rs with
  | nil => exact ⟨[], rfl, by simp⟩
  | cons b rs ih =>
    obtain ⟨ws, hws, hmem⟩ := ih fun b2 hm => h b2 (by simp [hm])
    have hb := cpd_nonzero r b t (h b (by simp))
    by_cases hle : pairDist r b ≤ t
    · refine ⟨[pairWarning r b] ++ ws, ?_, ?_⟩
      · simp only [check_row_against, hb, if_pos hle, hws]
      · intro b2 hm hle2
        rcases List.mem_cons.mp hm with rfl | hm2
        · simp
        · simp [hmem b2 hm2 hle2]
    · refine ⟨[] ++ ws, ?_, ?_⟩
      · simp only [check_row_against, hb, if_neg hle, hws]
      · intro b2 hm hle2
        rcases List.mem_cons.mp hm with rfl | hm2
        · exact absurd hle2 hle
        · simp [hmem b2 hm2 hle2]

/-- The inner pair loop raises on a colliding pair. -/
theorem cra_err (r : Row) (t : Nat) (rs : List Row) (b : Row)
    (hb : b ∈ rs) (hz : pairDist r b = 0) :
    check_row_against r t rs
      = .error (.assertionError "Identical indices detected.") := by
  induction rs with
  | nil => simp at hb
  | cons c rs ih =>
    rcases List.mem_cons.mp hb with rfl | hm
    · simp only [check_row_against, cpd_zero r b t hz]
    · cases hc : check_pair_distance r c false t with
      | error e =>
        obtain ⟨he, -⟩ := cpd_error_elim r c t e hc
        rw [he] at hc
        simp only [check_row_against, hc]
      | ok ws =>
        simp only [check_row_against, hc]
        rw [ih hm]

/-- The only error the inner pair loop raises is the identical-indices
assertion. -/
theorem cra_error_elim (r : Row) (t : Nat) (rs : List Row) (e : PyErr)
    (h : check_row_against r t rs = .error e) :
    e = .assertionError "Identical indices detected." := by
  induction rs with
  | nil => simp [check_row_against] at h
  | cons b rs ih =>
    cases hb : check_pair_distance r b false t with
    | error e2 =>
      simp only [check_row_against, hb] at h
      obtain ⟨he2, -⟩ := cpd_error_elim r b t e2 hb
      injection h with h1
      rw [← h1, he2]
    | ok ws =>
      simp only [check_row_against, hb] at h
      cases hrec : check_row_against r t rs with
      | error e3 =>
        rw [hrec] at h
        injection h with h1
        rw [h1] at hrec
        exact ih hrec
      | ok ws2 =>
        rw [hrec] at h
        simp at h

/-- The only error `check_distances` raises is the identical-indices
assertion. -/
theorem cd_error_elim (t : Nat) (rows : List Row) (e : PyErr)
    (h : check_distances t rows = .error e) :
    e = .assertionError "Identical indices detected." := by
  induction rows with
  | nil => simp [check_distances] at h
  | cons r rs ih =>
    cases hra : check_row_against r t rs with
    | error e2 =>
      simp only [check_distances, hra] at h
      injection h with h1
      rw [← h1]
      exact cra_error_elim r t rs e2 hra
    | ok ws =>
      simp only [check_distances, hra] at h
      cases hrec : check_distances t rs with
      | error e3 =>
        rw [hrec] at h
        injection h with h1
        rw [h1] at hrec
        exact ih hrec
      | ok ws2 =>
        rw [hrec] at h
        simp at h

/-- A colliding pair anywhere in the list makes `check_distances` raise. -/
theorem cd_err (t : Nat) (rows : List Row) (a b : Row)
    (hsub : [a, b].Sublist rows) (hz : pairDist a b = 0) :
    check_distances t rows
      = .error (.assertionError "Identical indices detected.") := by
  induction rows with
  | nil =>
    have := List.sublist_nil.mp hsub
    simp at this
  | cons r rs ih =>
    cases hsub with
    | cons _ h2 =>
      cases hra : check_row_against r t rs with
      | error e =>
        have he := cra_error_elim r t rs e hra
        rw [he] at hra
        simp only [check_distances, hra]
      | ok ws =>
        simp only [check_distances, hra]
        rw [ih h2]
    | cons₂ _ h2 =>
      have hbmem : b ∈ rs := List.singleton_sublist.mp h2
      simp only [check_distances]
      rw [cra_err a t rs b hbmem hz]

/-- When no pair collides, `check_distances` succeeds and its warning list
contains the warning of every near pair. -/
theorem cd_ok (t : Nat) (rows : List Row)
    (h : ∀ a b, [a, b].Sublist rows → pairDist a b ≠ 0) :
    ∃ ws, check_distances t rows = .ok ws
      ∧ ∀ a b, [a, b].Sublist rows → pairDist a b ≤ t → pairWarning a b ∈ ws := by
  induction rows with
  | nil =>
    refine ⟨[], rfl, ?_⟩
    intro a b hs
    have := List.sublist_nil.mp hs
    simp at this
  | cons r rs ih =>
    have hhead : ∀ b ∈ rs, pairDist r b ≠ 0 := fun b hb =>
      h r b (List.Sublist.cons₂ r (List.singleton_sublist.mpr hb))
    obtain ⟨ws1, hws1, hmem1⟩ := cra_ok r t rs hhead
    obtain ⟨ws2, hws2, hmem2⟩ := ih fun a b hs => h a b (hs.cons r)
    refine ⟨ws1 ++ ws2, ?_, ?_⟩
    · simp only [check_distances, hws1, hws2]
    · intro a b hs hle
      cases hs with
      | cons _ h2 => exact List.mem_append_right _ (hmem2 a b h2 hle)
      | cons₂ _ h2 =>
        exact List.mem_append_left _ (hmem1 b (List.singleton_sublist.mp h2) hle)

/-- The only error lane validation raises is the identical-indices
assertion. -/
theorem validate_go_error_elim (gs : List (List Row)) (e : PyErr)
    (h : validate_go gs = .error e) :
    e = .assertionError "Identical indices detected." := by
  induction gs with
  | nil => simp [validate_go] at h
  | cons g gs ih =>
    cases hc : check_distances 2 g with
    | error e2 =>
      simp only [validate_go, hc] at h
      injection h with h1
      rw [← h1]
      exact cd_error_elim 2 g e2 hc
    | ok ws =>
      simp only [validate_go, hc] at h
      cases hrec : validate_go gs with
      | error e3 =>
        rw [hrec] at h
        injection h with h1
        rw [h1] at hrec
        exact ih hrec
      | ok ws2 =>
        rw [hrec] at h
        simp at h

/-- A failing lane group makes the whole validation raise. -/
theorem validate_go_err (gs : List (List Row)) (g : List Row) (hg : g ∈ gs)
    (hcd : check_distances 2 g
      = .error (.assertionError "Identical indices detected.")) :
    validate_go gs = .error (.assertionError "Identical indices detected.") := by
  induction gs with
  | nil => simp at hg
  | cons g0 gs ih =>
    rcases List.mem_cons.mp hg with rfl | hm
    · simp only [validate_go, hcd]
    · cases hc : check_distances 2 g0 with
      | error e =>
        have he := cd_error_elim 2 g0 e hc
        rw [he] at hc
        simp only [validate_go, hc]
      | ok ws =>
        simp only [validate_go, hc]
        rw [ih hm]

/-- When every lane group passes, validation passes and keeps every
group's warnings. -/
theorem validate_go_ok (gs : List (List Row))
    (h : ∀ g ∈ gs, ∃ ws, check_distances 2 g = .ok ws) :
    ∃ ws, validate_go gs = .ok ws
      ∧ ∀ g ∈ gs, ∀ wsg, check_distances 2 g = .ok wsg →
        ∀ x ∈ wsg, x ∈ ws := by
  induction gs with
  | nil => exact ⟨[], rfl, by simp⟩
  | cons g gs ih =>
    obtain ⟨wsg, hwsg⟩ := h g (by simp)
    obtain ⟨ws, hws, hsub⟩ := ih fun g2 hm => h g2 (by simp [hm])
    refine ⟨wsg ++ ws, by simp only [validate_go, hwsg, hws], ?_⟩
    intro g2 hm wsg2 hws2 x hx
    rcases List.mem_cons.mp hm with rfl | hm2
    · rw [hwsg] at hws2
      injection hws2 with he
      subst he
      exact List.mem_append_left _ hx
    · exact List.mem_append_right _ (hsub g2 hm2 wsg2 hws2 x hx)

/-- A nonempty lane group is one of the dataframe's lane groups. -/
theorem lane_mem (rows : List Row) (l : String) (a : Row)
    (ha : a ∈ laneGroup rows l) :
    laneGroup rows l ∈ lane_groups rows := by
  have hmem := List.mem_filter.mp ha
  have hl : a.lane = l := by simpa using hmem.2
  have hlmem : l ∈ lanesOf rows := by
    rw [← hl]
    exact List.mem_dedup.mpr (List.mem_map_of_mem _ hmem.1)
  exact List.mem_map_of_mem _ hlmem

/-- C1 (amended): for every unordered pair of rows within the same lane,
(i) distance 0 between the concatenations Index1+Index2 makes validation
raise, so `get_manifests` aborts before any manifest is produced;
(ii) when no same-lane pair collides, validation succeeds, and a pair with
positive distance at or below 2 only contributes a logged warning; (iii)
that warning carries the base-by-base alignment exactly when the two rows'
concatenated index lengths are equal (the claim omits this proviso). -/
theorem C1_distance_validation (rows : List Row) (p : Params) (a b : Row)
    (l : String) (hmem : [a, b].Sublist (laneGroup rows l)) :
    (pairDist a b = 0 →
      get_manifests_model rows p
        = .error (.assertionError "Identical indices detected."))
    ∧ ((∀ g ∈ lane_groups rows, g.Pairwise fun x y => pairDist x y ≠ 0) →
      ∃ ws, validate_lanes rows = .ok ws
        ∧ (0 < pairDist a b → pairDist a b ≤ 2 → pairWarning a b ∈ ws))
    ∧ pairWarning a b
      = (if a.index1.length + a.index2.length
            == b.index1.length + b.index2.length then
          pairWarningHead (pairDist a b) a b ++ "\n"
            ++ show_match (a.index1 ++ "-" ++ a.index2) (b.index1 ++ "-" ++ b.index2)
        else pairWarningHead (pairDist a b) a b) := by
  have hamem : a ∈ laneGroup rows l := hmem.subset (by simp)
  have hgmem : laneGroup rows l ∈ lane_groups rows := lane_mem rows l a hamem
  refine ⟨?_, ?_, rfl⟩
  · intro hz
    have hcd := cd_err 2 (laneGroup rows l) a b hmem hz
    have hvg := validate_go_err (lane_groups rows) _ hgmem hcd
    simp only [get_manifests_model, validate_lanes, hvg]
  · intro hall
    have hok : ∀ g ∈ lane_groups rows, ∃ ws, check_distances 2 g = .ok ws := by
      intro g hg
      obtain ⟨ws, h1, -⟩ := cd_ok 2 g fun x y hs =>
        List.pairwise_iff_forall_sublist.mp (hall g hg) hs
      exact ⟨ws, h1⟩
    obtain ⟨ws, hws, hsub⟩ := validate_go_ok _ hok
    refine ⟨ws, hws, ?_⟩
    intro _ hle
    obtain ⟨wsg, h1, h2⟩ := cd_ok 2 (laneGroup rows l) fun x y hs =>
      List.pairwise_iff_forall_sublist.mp (hall _ hgmem) hs
    exact hsub _ hgmem wsg h1 _ (h2 a b hmem hle)

/-- C1 counterexample: two same-lane rows at distance 1 (positive, at or
below the threshold 2) with unequal concatenated index lengths: the logged
warning is exactly the single distance line, with no base-by-base
alignment — the claim's "only a warning with a base-by-base alignment is
logged" fails at this input. -/
theorem C1_counterexample :
    0 < pairDist rxS1 rxS2 ∧ pairDist rxS1 rxS2 ≤ 2
    ∧ check_pair_distance rxS1 rxS2 false 2
        = .ok ["Hamming distance 1 between S1 and S2"]
    ∧ strContains "Hamming distance 1 between S1 and S2" "\n" = false := by
  exact ⟨by decide, by decide, by rfl, by decide⟩

/-- C1 witness: the amended theorem at the concrete two-row lane — the
distance-1 pair's warning is logged and validation passes. -/
theorem C1_witness :
    ∃ ws, validate_lanes [rxS1, rxS2] = .ok ws
      ∧ pairWarning rxS1 rxS2 ∈ ws := by
  have hmem : [rxS1, rxS2].Sublist (laneGroup [rxS1, rxS2] "1") := by
    rw [show laneGroup [rxS1, rxS2] "1" = [rxS1, rxS2] from rfl]
  obtain ⟨ws, h1, h2⟩ :=
    (C1_distance_validation [rxS1, rxS2] cP rxS1 rxS2 "1" hmem).2.1 (by decide)
  exact ⟨ws, h1, h2 (by decide) (by decide)⟩

/-- A nonempty list has `isEmpty = false`. -/
theorem isEmpty_false_of_ne_nil {α : Type} (l : List α) (h : l ≠ []) :
    l.isEmpty = false := by
  cases l with
  | nil => exact absurd rfl h
  | cons a t => rfl

/-- C6 (amended): for the trimmed (or phix) flavor, (i) if any row of the
flavor's dataframe has an index shorter than its cycle count, only that
flavor fails: `make_manifest` returns `None` contents with the failure
logged, and the zip-writing loop emits *no* file for it (not an empty one)
while writing the remaining manifests; (ii) when no index is short, every
index is truncated to exactly the cycle count, each strictly-longer index
contributing a trim log line. -/
theorem C6_flavor_skip (rows : List Row) (p : Params) (mtype : String)
    (hf : mtype = "trimmed" ∨ mtype = "phix") :
    ((∃ r ∈ flavorSubset rows mtype,
        r.index1.length < p.idx1Cycles ∨ r.index2.length < p.idx2Cycles) →
      ∃ lgs, make_manifest rows p mtype
          = .ok ((manifestFileName p mtype, none), lgs)
        ∧ shortSkipLog mtype ∈ lgs)
    ∧ ((∀ r ∈ flavorSubset rows mtype,
          p.idx1Cycles ≤ r.index1.length ∧ p.idx2Cycles ≤ r.index2.length) →
      ∀ i1 i2,
        get_custom_mistmatch_thresholds
            (((flavorSubset rows mtype).map (trimIndex1 p.idx1Cycles)).map
              (trimIndex2 p.idx2Cycles)) = .ok (i1, i2) →
        make_manifest rows p mtype
          = .ok ((manifestFileName p mtype,
              some (String.intercalate "\n\n"
                [runValuesSection p (manifestFileName p mtype),
                 settingsWith i1 i2,
                 "[SAMPLES]\n" ++ dfToCsv
                   (((flavorSubset rows mtype).map (trimIndex1 p.idx1Cycles)).map
                     (trimIndex2 p.idx2Cycles))])),
              (((flavorSubset rows mtype).filter
                  fun r => p.idx1Cycles < r.index1.length).map
                  fun r => trimIdxLog r "Index1" r.index1 p.idx1Cycles)
               ++ ((((flavorSubset rows mtype).map (trimIndex1 p.idx1Cycles)).filter
                  fun r => p.idx2Cycles < r.index2.length).map
                  fun r => trimIdxLog r "Index2" r.index2 p.idx2Cycles))
        ∧ (∀ r ∈ ((flavorSubset rows mtype).map (trimIndex1 p.idx1Cycles)).map
              (trimIndex2 p.idx2Cycles),
            r.index1.length = p.idx1Cycles ∧ r.index2.length = p.idx2Cycles))
    ∧ (∀ rest : List (String × Option String),
        writeZip ((manifestFileName p mtype, (none : Option String)) :: rest)
          = writeZip rest) := by
  have hdisp : make_manifest rows p mtype = make_manifest_trim rows p mtype := by
    rcases hf with rfl | rfl <;> rfl
  refine ⟨?_, ?_, ?_⟩
  · rintro ⟨r, hr, hshort⟩
    rw [hdisp]
    by_cases hs1 : (flavorSubset rows mtype).filter
        (fun r => r.index1.length < p.idx1Cycles) = []
    · have hr2 : r.index2.length < p.idx2Cycles := by
        rcases hshort with h1 | h2
        · exfalso
          have hin : r ∈ (flavorSubset rows mtype).filter
              (fun r => r.index1.length < p.idx1Cycles) :=
            List.mem_filter.mpr ⟨hr, by simpa using h1⟩
          rw [hs1] at hin
          simp at hin
        · exact h2
      have hmem2 : trimIndex1 p.idx1Cycles r ∈
          ((flavorSubset rows mtype).map (trimIndex1 p.idx1Cycles)).filter
            (fun r => r.index2.length < p.idx2Cycles) :=
        List.mem_filter.mpr ⟨List.mem_map_of_mem _ hr,
          by simpa [trimIndex1] using hr2⟩
      have hse : (((flavorSubset rows mtype).map (trimIndex1 p.idx1Cycles)).filter
          (fun r => r.index2.length < p.idx2Cycles)).isEmpty = false := by
        apply isEmpty_false_of_ne_nil
        intro hnil
        rw [hnil] at hmem2
        simp at hmem2
      simp only [make_manifest_trim, hs1, List.isEmpty_nil, Bool.not_true,
        Bool.false_eq_true, if_false, hse, Bool.not_false, if_true]
      exact ⟨_, rfl, by simp⟩
    · have hse : ((flavorSubset rows mtype).filter
          (fun r => r.index1.length < p.idx1Cycles)).isEmpty = false :=
        isEmpty_false_of_ne_nil _ hs1
      simp only [make_manifest_trim, hse, Bool.not_false, if_true]
      exact ⟨_, rfl, by simp⟩
  · intro hns i1 i2 hok
    rw [hdisp]
    have hf1 : (flavorSubset rows mtype).filter
        (fun r => r.index1.length < p.idx1Cycles) = [] := by
      apply filter_eq_nil_of
      intro r hr
      have := (hns r hr).1
      simp only [decide_eq_false_iff_not]
      omega
    have hf2 : ((flavorSubset rows mtype).map (trimIndex1 p.idx1Cycles)).filter
        (fun r => r.index2.length < p.idx2Cycles) = [] := by
      apply filter_eq_nil_of
      intro r hr
      obtain ⟨r0, hr0, rfl⟩ := List.mem_map.mp hr
      have := (hns r0 hr0).2
      simp only [decide_eq_false_iff_not, trimIndex1]
      omega
    constructor
    · simp only [make_manifest_trim, hf1, List.isEmpty_nil, Bool.not_true,
        Bool.false_eq_true, if_false, hf2, hok]
    · intro r hr
      obtain ⟨r1, hr1, rfl⟩ := List.mem_map.mp hr
      obtain ⟨r0, hr0, rfl⟩ := List.mem_map.mp hr1
      have hns0 := hns r0 hr0
      have key : ∀ (s : String) (n : Nat),
          (String.mk (s.data.take n)).length = min n s.length := by
        intro s n
        show (s.data.take n).length = min n s.data.length
        exact List.length_take n s.data
      constructor
      · show (String.mk (r0.index1.data.take p.idx1Cycles)).length = p.idx1Cycles
        rw [key r0.index1 p.idx1Cycles]
        have h1 := hns0.1
        omega
      · show (String.mk (r0.index2.data.take p.idx2Cycles)).length = p.idx2Cycles
        rw [key r0.index2 p.idx2Cycles]
        have h2 := hns0.2
        omega
  · intro rest
    simp [writeZip]

/-- C6 counterexample: a dataframe whose sample row has a 3-base Index1
against 4 index cycles: the trimmed flavor is skipped with `None` contents,
and the zip loop writes the untrimmed, phix and empty manifests but **no**
file at all — in particular no empty file — for the trimmed flavor. -/
theorem C6_counterexample :
    make_manifest c6Rows cP "trimmed"
      = .ok (("root_trimmed.csv", none),
          ["S1 has Index1 ACG of length 3 shorter than 4 cycles.",
           "Could not generate trimmed manifest because indexes are shorter than the number of index cycles. Skipping."])
    ∧ (get_manifests_model c6Rows cP).map (fun ms => (writeZip ms).map Prod.fst)
      = .ok ["root_untrimmed.csv", "root_phix.csv", "root_empty.csv"]
    ∧ "root_trimmed.csv" ∉ ["root_untrimmed.csv", "root_phix.csv", "root_empty.csv"] := by
  exact ⟨by rfl, by rfl, by decide⟩

/-- C6 witness: the amended theorem at the concrete dataframe — the
too-short sample row skips the trimmed flavor with the failure logged, and
a `None`-contents manifest contributes nothing to the zip. -/
theorem C6_witness :
    (∃ lgs, make_manifest c6Rows cP "trimmed"
        = .ok ((manifestFileName cP "trimmed", none), lgs)
      ∧ shortSkipLog "trimmed" ∈ lgs)
    ∧ writeZip [(manifestFileName cP "trimmed", (none : Option String)),
        ("other.csv", some "contents")]
      = writeZip [("other.csv", some "contents")] := by
  have h := C6_flavor_skip c6Rows cP "trimmed" (Or.inl rfl)
  exact ⟨h.1 ⟨c6S, by decide, Or.inl (by decide)⟩,
    h.2.2 [("other.csv", some "contents")]⟩

end EppsModel
